import Mathlib

/-!
The routine tracker of `src/RoutineDemo.jsx` (tiny-wins).

A shallow embedding of the date helpers, the state transitions and the two
read-side projections of `RoutineDemo.jsx`, together with the part of the
ECMAScript `Date` arithmetic (ECMA-262, section 21.4.1) those functions call.

Modelling conventions.

* A JavaScript number that the program uses as an integer is an `Int`; `NaN` is
  `none` in an `Option Int`.  A `Date` object holds a time value of at most
  8.64e15 ms in absolute value or is `Invalid Date`: the constructor and the
  setters clip with `TimeClip`.  The rounding of doubles beyond 2^53 is outside
  the model: every time value is below 2^53, and a date computed from a larger
  number is `Invalid Date` in the program and in the model alike.
* The host time zone is a parameter of type `Zone`, which gives the offset of
  local time from UTC at every instant and for every local time, so that a zone
  with daylight-saving transitions is a value of the type.  An integer `tza`
  used as a zone stands for the zone whose offset is `tza` milliseconds at all
  times; the statements on "every time zone offset" are about these zones.
* A JavaScript string is a `String`, read as its list of characters.
* The React state of the component is one record `State`; an event handler is a
  function `State → State` that applies all the `setX` calls of the handler to
  the state the handler was rendered with.  The deferred `saveAllData` calls
  only write to the external store and do not appear in the transitions.
* The debounced autosave is modelled apart from the transitions: times are
  whole milliseconds and the host is a record with its clock, its queue of
  pending timers and the writes performed.
-/

namespace TinyWins

/-! ## ECMAScript date arithmetic -/

/-- Milliseconds in a day. -/
def msPerDay : Int := 86400000

/-- Day number of a time value: `floor(t / msPerDay)`. -/
def Day (t : Int) : Int := t / msPerDay

/-- Milliseconds elapsed within the day: `t modulo msPerDay`. -/
def TimeWithinDay (t : Int) : Int := t % msPerDay

/-- Gregorian leap-year rule, as in `DaysInYear`. -/
def isLeapYear (y : Int) : Bool :=
  y % 4 == 0 && (y % 100 != 0 || y % 400 == 0)

/-- Number of days of year `y`. -/
def DaysInYear (y : Int) : Int := if isLeapYear y then 366 else 365

/-- Day number of the first day of year `y`. -/
def DayFromYear (y : Int) : Int :=
  365 * (y - 1970) + (y - 1969) / 4 - (y - 1901) / 100 + (y - 1601) / 400

/-- The year a day number falls in.  ECMA-262 defines it as the largest `y`
with `DayFromYear y ≤ d`; here it is computed from an estimate that is off by
at most one year (`yearFromDay_spec` shows the two agree). -/
def yearFromDay (d : Int) : Int :=
  let y0 := 1970 + (400 * d) / 146097
  if d < DayFromYear y0 then y0 - 1
  else if DayFromYear (y0 + 1) ≤ d then y0 + 1
  else y0

/-- The year of a time value. -/
def YearFromTime (t : Int) : Int := yearFromDay (Day t)

/-- Whether the time value lies in a leap year. -/
def InLeapYear (t : Int) : Bool := isLeapYear (YearFromTime t)

/-- Zero-based day within the year. -/
def DayWithinYear (t : Int) : Int := Day t - DayFromYear (YearFromTime t)

/-- Day within the year on which month `m` (0 = January) starts; `m = 12`
gives the length of the year. -/
def monthStart (leap : Bool) (m : Int) : Int :=
  let l : Int := if leap then 1 else 0
  if m ≤ 0 then 0
  else if m = 1 then 31
  else if m = 2 then 59 + l
  else if m = 3 then 90 + l
  else if m = 4 then 120 + l
  else if m = 5 then 151 + l
  else if m = 6 then 181 + l
  else if m = 7 then 212 + l
  else if m = 8 then 243 + l
  else if m = 9 then 273 + l
  else if m = 10 then 304 + l
  else if m = 11 then 334 + l
  else 365 + l

/-- Month (0 = January) of a time value, from the table of `MonthFromTime`. -/
def MonthFromTime (t : Int) : Int :=
  let d := DayWithinYear t
  let l : Int := if InLeapYear t then 1 else 0
  if d < 31 then 0
  else if d < 59 + l then 1
  else if d < 90 + l then 2
  else if d < 120 + l then 3
  else if d < 151 + l then 4
  else if d < 181 + l then 5
  else if d < 212 + l then 6
  else if d < 243 + l then 7
  else if d < 273 + l then 8
  else if d < 304 + l then 9
  else if d < 334 + l then 10
  else 11

/-- Day of the month (1-based) of a time value. -/
def DateFromTime (t : Int) : Int :=
  DayWithinYear t - monthStart (InLeapYear t) (MonthFromTime t) + 1

/-- Day of the week, 0 = Sunday (1 January 1970 was a Thursday). -/
def WeekDay (t : Int) : Int := (Day t + 4) % 7

/-- Milliseconds of a time of day. -/
def MakeTime (hour min sec ms : Int) : Int :=
  hour * 3600000 + min * 60000 + sec * 1000 + ms

/-- Day number of a year, month and day of month; the month and the day may
lie outside their calendar range and then carry over. -/
def MakeDay (year month date : Int) : Int :=
  let ym := year + month / 12
  let mn := month % 12
  DayFromYear ym + monthStart (isLeapYear ym) mn + date - 1

/-- Time value of a day number and a time of day. -/
def MakeDate (day time : Int) : Int := day * msPerDay + time

/-! ## Time zones -/

/-- The host time zone.  `offsetAt t` is the offset of local time from UTC, in
milliseconds, at the instant with UTC time value `t`, and `offsetOfLocal l` is the
offset with which the local time value `l` is read as an instant: a local time that
the clocks skip or repeat at a transition is read with the offset before the
transition (ECMA-262, `LocalTime` and `UTC`). -/
structure Zone where
  offsetAt : Int → Int
  offsetOfLocal : Int → Int

/-- The offset of the zone that an integer stands for.  The offset of a zone is less
than a day in absolute value; an integer outside that interval stands for the
nearest offset within it. -/
def zoneOffset (tza : Int) : Int := max (1 - msPerDay) (min tza (msPerDay - 1))

/-- The zone with the same offset at all times. -/
def constZone (tza : Int) : Zone :=
  { offsetAt := fun _ => zoneOffset tza,
    offsetOfLocal := fun _ => zoneOffset tza }

instance : Coe Int Zone := ⟨constZone⟩

instance (n : Nat) : OfNat Zone n := ⟨constZone n⟩

/-- Local time of a UTC time value. -/
def LocalTime (z : Zone) (t : Int) : Int := t + z.offsetAt t

/-- UTC time value of a local time. -/
def UTC (z : Zone) (t : Int) : Int := t - z.offsetOfLocal t

/-- A zone whose offsets are less than a day and in which every local time, read as an
instant, falls on its own local day: a transition may skip or repeat local times,
but it moves none of them to another day.  Every zone of constant offset is such a
zone, and so is a zone whose daylight-saving transitions stay within a day. -/
def Zone.regular (z : Zone) : Prop :=
  ∀ l : Int, -msPerDay < z.offsetOfLocal l ∧ z.offsetOfLocal l < msPerDay ∧
    Day (LocalTime z (UTC z l)) = Day l

/-! ## Date objects -/

/-- A `Date` object: its time value (UTC milliseconds), or `Invalid Date`. -/
inductive JSDate where
  | invalid : JSDate
  | time (t : Int) : JSDate
  deriving DecidableEq, Repr

/-- The largest time value of a `Date` object: 8.64e15 ms, which is 100,000,000 days. -/
def maxTime : Int := 8640000000000000

/-- The `Date` object of a computed time value (`TimeClip`): beyond `maxTime` in absolute
value it is `Invalid Date`. -/
def TimeClip (t : Int) : JSDate :=
  if -maxTime ≤ t ∧ t ≤ maxTime then JSDate.time t else JSDate.invalid

/-- The year a `Date` constructor takes its year argument for: a year from 0 to 99 means
1900 + year. -/
def fullYear (y : Int) : Int := if 0 ≤ y ∧ y ≤ 99 then 1900 + y else y

/-- The call `new Date(year, month, date)`: local midnight of the given day.  A `NaN`
argument gives `Invalid Date`. -/
def newDate (z : Zone) (year month date : Option Int) : JSDate :=
  match year, month, date with
  | some y, some m, some dt =>
    let yr := fullYear y
    TimeClip (UTC z (MakeDate (MakeDay yr m dt) (MakeTime 0 0 0 0)))
  | _, _, _ => JSDate.invalid

/-- Method `getFullYear`. -/
def getFullYear (z : Zone) : JSDate → Option Int
  | JSDate.invalid => none
  | JSDate.time t => some (YearFromTime (LocalTime z t))

/-- Method `getMonth`. -/
def getMonth (z : Zone) : JSDate → Option Int
  | JSDate.invalid => none
  | JSDate.time t => some (MonthFromTime (LocalTime z t))

/-- Method `getDate`. -/
def getDate (z : Zone) : JSDate → Option Int
  | JSDate.invalid => none
  | JSDate.time t => some (DateFromTime (LocalTime z t))

/-- Method `getDay`. -/
def getDay (z : Zone) : JSDate → Option Int
  | JSDate.invalid => none
  | JSDate.time t => some (WeekDay (LocalTime z t))

/-- Method `setDate(dt)`, returning the updated object. -/
def setDate (z : Zone) (d : JSDate) (dt : Option Int) : JSDate :=
  match d, dt with
  | JSDate.time t, some n =>
    let l := LocalTime z t
    TimeClip (UTC z (MakeDate (MakeDay (YearFromTime l) (MonthFromTime l) n) (TimeWithinDay l)))
  | _, _ => JSDate.invalid

/-- Method `setHours(hour, min, sec, ms)`, returning the updated object. -/
def setHours (z : Zone) (d : JSDate) (hour min sec ms : Int) : JSDate :=
  match d with
  | JSDate.time t =>
    TimeClip (UTC z (MakeDate (Day (LocalTime z t)) (MakeTime hour min sec ms)))
  | JSDate.invalid => JSDate.invalid

/-- Numeric value of a date operand (`null` reads as 0, `Invalid Date` as `NaN`). -/
def dateToNumber : Option JSDate → Option Int
  | none => some 0
  | some JSDate.invalid => none
  | some (JSDate.time t) => some t

/-- Comparison `a >= b` of two `Date` objects; false when either is invalid. -/
def dateGe (a b : JSDate) : Bool :=
  match a, b with
  | JSDate.time x, JSDate.time y => decide (y ≤ x)
  | _, _ => false

/-- Comparison `a <= b` of two `Date` objects; false when either is invalid. -/
def dateLe (a b : JSDate) : Bool :=
  match a, b with
  | JSDate.time x, JSDate.time y => decide (x ≤ y)
  | _, _ => false

/-! ## Strings and numbers -/

/-- The call `s.split(sep)` for a one-character separator. -/
def splitOn (sep : Char) : List Char → List (List Char)
  | [] => [[]]
  | c :: cs =>
    if c = sep then [] :: splitOn sep cs
    else
      match splitOn sep cs with
      | [] => [[c]]
      | p :: ps => (c :: p) :: ps

/-- The call `Number(s)` on the strings the date helpers meet: a run of decimal digits is
its value and the empty string is 0.  Every other string is `NaN` here (signs,
fractions, exponents, radix prefixes and surrounding white space are outside
the model). -/
def jsNumber (cs : List Char) : Option Int :=
  if cs.all Char.isDigit then
    some (Int.ofNat (cs.foldl (fun acc c => acc * 10 + (c.toNat - 48)) 0))
  else none

/-- The call `String(n)` for an integer or `NaN`. -/
def numberToString : Option Int → List Char
  | none => ['N', 'a', 'N']
  | some n => if n < 0 then '-' :: Nat.toDigits 10 n.natAbs else Nat.toDigits 10 n.natAbs

/-- The call `s.padStart(2, "0")`. -/
def padStart2 (cs : List Char) : List Char :=
  List.replicate (2 - cs.length) '0' ++ cs

/-! ## Date helpers of `RoutineDemo.jsx` -/

/-- Function `parseDate(dateStr)`; `none` is the `null` returned for an empty string. -/
def parseDate (z : Zone) (dateStr : String) : Option JSDate :=
  if dateStr.data = [] then none
  else
    let parts := (splitOn '-' dateStr.data).map jsNumber
    let year := (parts.get? 0).join
    let month := (parts.get? 1).join
    let day := (parts.get? 2).join
    some (newDate z year (month.map (fun m => m - 1)) day)

/-- Function `formatDate(dateObj)` on a `Date` object (every call in the source passes
one). -/
def formatDate (z : Zone) (dateObj : JSDate) : String :=
  let year := getFullYear z dateObj
  let month := padStart2 (numberToString ((getMonth z dateObj).map (fun m => m + 1)))
  let day := padStart2 (numberToString (getDate z dateObj))
  String.mk (numberToString year ++ '-' :: month ++ '-' :: day)

/-- Function `getWeekRange(offset)`; `now` is the time value of `new Date()`. -/
def getWeekRange (z : Zone) (now offset : Int) : JSDate × JSDate :=
  let today := JSDate.time now
  let day := getDay z today
  let sunday := today
  let sunday := setDate z sunday
    (match getDate z today, day with
      | some dt, some wd => some (dt - wd + offset * 7)
      | _, _ => none)
  let sunday := setHours z sunday 0 0 0 0
  let saturday := sunday
  let saturday := setDate z saturday ((getDate z sunday).map (fun dt => dt + 6))
  let saturday := setHours z saturday 23 59 59 999
  (sunday, saturday)

/-! ## Data model -/

/-- An element of `history`.  The fields the code reads through a default
(`entry.mood || 0`, `entry.completed?.filter`, `entry?.anchors || []`) may be
missing, which is `none`. -/
structure Entry where
  date : String
  anchors : Option (List String)
  explore : String
  journal : String
  mood : Option Int
  completed : Option (List Bool)
  deriving DecidableEq, Repr

/-- The `useState` cells of the component. -/
structure State where
  anchors : List String
  explore : String
  journal : String
  mood : Int
  done : Bool
  checkIn : Bool
  completed : List Bool
  history : List Entry
  showWeeklySummary : Bool
  chartRange : String
  customStart : String
  customEnd : String
  dateInput : String
  viewMode : String
  calendarMonth : Int
  calendarYear : Int
  deriving DecidableEq, Repr

/-- The state of the first render, for a given current date. -/
def initialState (todayIso : String) (month year : Int) : State :=
  { anchors := ["", "", ""], explore := "", journal := "", mood := 3, done := false,
    checkIn := false, completed := [false, false, false], history := [],
    showWeeklySummary := false, chartRange := "this", customStart := "", customEnd := "", dateInput := todayIso,
    viewMode := "daily", calendarMonth := month, calendarYear := year }

/-- The call `anchors.filter(Boolean)` on strings: the empty string is the only falsy one. -/
def filterTruthy (anchors : List String) : List String :=
  anchors.filter (fun a => a ≠ "")

/-- The expression `completed.filter(Boolean).length`. -/
def countTrue (completed : List Bool) : Nat :=
  (completed.filter (fun b => b)).length

/-- The read `arr[index]` of a boolean array, an absent element reading as falsy. -/
def boolAt (arr : List Bool) (index : Nat) : Bool := arr.getD index false

/-- The write `arr[index] = v`.  Writing past the end extends the array; the holes this
leaves are falsy in every read the program makes and are `false` here. -/
def arraySet (arr : List Bool) (index : Nat) (v : Bool) : List Bool :=
  if index < arr.length then arr.set index v
  else arr ++ List.replicate (index - arr.length) false ++ [v]

/-- The lookup `history.find(e => e.date === date)`. -/
def findByDate (history : List Entry) (date : String) : Option Entry :=
  history.find? (fun e => e.date == date)

/-! ## Event handlers -/

/-- Handler `toggleCompleted(index)`. -/
def toggleCompleted (s : State) (index : Nat) : State :=
  let newCompleted := arraySet s.completed index (!boolAt s.completed index)
  let s1 := { s with completed := newCompleted }
  if s.done then
    let formattedDate := s.dateInput
    let updated := s.history.map (fun entry =>
      if entry.date = formattedDate then { entry with completed := some newCompleted }
      else entry)
    { s1 with history := updated }
  else s1

/-- Handler `handleSubmit()`. -/
def handleSubmit (s : State) : State :=
  let formattedDate := s.dateInput
  let newEntry : Entry :=
    { date := formattedDate,
      anchors := some (filterTruthy s.anchors),
      explore := s.explore,
      journal := "",
      mood := some 0,
      completed := some s.completed }
  let updated := s.history.filter (fun e => e.date ≠ formattedDate)
  { s with done := true, history := newEntry :: updated }

/-- Handler `handleCheckIn()`. -/
def handleCheckIn (s : State) : State :=
  let formattedDate := s.dateInput
  if s.checkIn then
    let updated := s.history.map (fun entry =>
      if entry.date = formattedDate then { entry with journal := "", mood := some 0 }
      else entry)
    { s with history := updated, checkIn := false, journal := "", mood := 3 }
  else
    let updated := s.history.map (fun entry =>
      if entry.date = formattedDate then { entry with journal := s.journal, mood := some s.mood }
      else entry)
    { s with history := updated, checkIn := true }

/-- What one submission reads from the form: the selected date and the draft. -/
structure Draft where
  date : String
  anchors : List String
  explore : String
  completed : List Bool
  deriving DecidableEq, Repr

/-- The entry `handleSubmit` builds when the form holds draft `d`. -/
def entryOfDraft (d : Draft) : Entry :=
  { date := d.date, anchors := some (filterTruthy d.anchors), explore := d.explore,
    journal := "", mood := some 0, completed := some d.completed }

/-- The user edits the form to `d` and presses submit. -/
def submitDraft (s : State) (d : Draft) : State :=
  handleSubmit { s with dateInput := d.date, anchors := d.anchors, explore := d.explore,
                        completed := d.completed }

/-- A sequence of submissions, oldest first. -/
def submitAll (s : State) (ds : List Draft) : State := ds.foldl submitDraft s

/-! ## Range aggregator -/

/-- A point handed to the chart. -/
structure ChartPoint where
  date : String
  completed : Nat
  mood : Int
  anchors : Option (List String)
  explore : String
  journal : String
  completedList : Option (List Bool)
  deriving DecidableEq, Repr

/-- The object built by the `map` callback of `getFilteredChartData`. -/
def toChartPoint (entry : Entry) : ChartPoint :=
  { date := entry.date,
    completed := (entry.completed.map countTrue).getD 0,
    mood := entry.mood.getD 0,
    anchors := entry.anchors,
    explore := entry.explore,
    journal := entry.journal,
    completedList := entry.completed }

/-- The `filter` callback of `getFilteredChartData`; `none` is the `TypeError` of calling
`setHours` on the `null` that `parseDate` returns for an empty date. -/
def inRange (z : Zone) (start stop : Option JSDate) (entry : Entry) : Option Bool :=
  match start, stop with
  | some st, some en =>
    match parseDate z entry.date with
    | none => none
    | some d =>
      let entryDate := setHours z d 12 0 0 0
      some (dateGe entryDate st && dateLe entryDate en)
  | _, _ => some true

/-- The filtering step, which fails as soon as the callback throws. -/
def filterEntries (z : Zone) (start stop : Option JSDate) : List Entry → Option (List Entry)
  | [] => some []
  | e :: es =>
    match inRange z start stop e with
    | none => none
    | some b =>
      match filterEntries z start stop es with
      | none => none
      | some r => some (if b then e :: r else r)

/-- The comparator `parseDate(a.date) - parseDate(b.date)`; `none` is `NaN`. -/
def compareByDate (z : Zone) (a b : ChartPoint) : Option Int :=
  match dateToNumber (parseDate z a.date), dateToNumber (parseDate z b.date) with
  | some x, some y => some (x - y)
  | _, _ => none

/-- Whether the comparator lets `a` stay before `b`: its value is not positive (`NaN`
counts as 0). -/
def keepsOrder (z : Zone) (a b : ChartPoint) : Bool :=
  match compareByDate z a b with
  | some v => decide (v ≤ 0)
  | none => true

/-- The call `points.sort(comparator)`.  The platform sort is stable; it is modelled by a
stable insertion sort, with which every stable sort agrees when the comparator
is a consistent ordering. -/
def sortByDate (z : Zone) (points : List ChartPoint) : List ChartPoint :=
  points.insertionSort (fun a b => keepsOrder z a b = true)

/-- Function `getFilteredChartData()`; `now` is the time value of `new Date()`, and `none`
is a thrown `TypeError`. -/
def getFilteredChartData (z : Zone) (now : Int) (s : State) : Option (List ChartPoint) :=
  let range : Option JSDate × Option JSDate :=
    if s.chartRange = "this" then
      (some (getWeekRange z now 0).1, some (getWeekRange z now 0).2)
    else if s.chartRange = "last" then
      (some (getWeekRange z now (-1)).1, some (getWeekRange z now (-1)).2)
    else if s.chartRange = "custom" ∧ s.customStart ≠ "" ∧ s.customEnd ≠ "" then
      (parseDate z s.customStart, parseDate z s.customEnd)
    else (none, none)
  let start := range.1.map (fun d => setHours z d 0 0 0 0)
  let stop := range.2.map (fun d => setHours z d 23 59 59 999)
  (filterEntries z start stop s.history).map
    (fun filtered => sortByDate z (filtered.map toChartPoint))

/-! ## Calendar projector -/

/-- An element of the array built by `generateCalendarDays`: a leading placeholder
`{ day: null, empty: true }`, or the cell of a day of the month. -/
inductive CalendarCell where
  | blank : CalendarCell
  | day (day : Nat) (date : String) (hasEntry isCheckedIn : Bool) (mood : Int)
      (anchors : List String) (tasksCompleted numberOfTasks : Nat) : CalendarCell
  deriving DecidableEq, Repr

/-- The value `startingDayOfWeek` of `generateCalendarDays`, as the number of rounds of
the first loop. -/
def firstWeekdayOfMonth (z : Zone) (year month : Int) : Nat :=
  ((getDay z (newDate z (some year) (some month) (some 1))).getD 0).toNat

/-- The value `daysInMonth` of `generateCalendarDays`, as the number of rounds of the
second loop. -/
def daysInMonth (z : Zone) (year month : Int) : Nat :=
  ((getDate z (newDate z (some year) (some (month + 1)) (some 0))).getD 0).toNat

/-- The cell pushed by the second loop of `generateCalendarDays` for `day`. -/
def dayCell (z : Zone) (s : State) (day : Nat) : CalendarCell :=
  let dateStr := formatDate z
    (newDate z (some s.calendarYear) (some s.calendarMonth) (some (Int.ofNat day)))
  let entry := findByDate s.history dateStr
  let anchors := (entry.bind (fun e => e.anchors)).getD []
  let validAnchors := filterTruthy anchors
  let numberOfTasks := validAnchors.length
  let tasksCompleted := ((entry.bind (fun e => e.completed)).map countTrue).getD 0
  CalendarCell.day day dateStr entry.isSome
    (match entry.bind (fun e => e.mood) with
      | some m => decide (0 < m)
      | none => false)
    ((entry.bind (fun e => e.mood)).getD 0)
    validAnchors tasksCompleted numberOfTasks

/-- Function `generateCalendarDays()`. -/
def generateCalendarDays (z : Zone) (s : State) : List CalendarCell :=
  let startingDayOfWeek := firstWeekdayOfMonth z s.calendarYear s.calendarMonth
  let daysInMonth := daysInMonth z s.calendarYear s.calendarMonth
  List.replicate startingDayOfWeek CalendarCell.blank ++
    (List.range daysInMonth).map (fun k => dayCell z s (k + 1))

/-! ## Calendar reference values -/

/-- Length of month `m` (0 = January) in a leap or a common year. -/
def lengthOfMonth (leap : Bool) (m : Int) : Int :=
  if m = 1 then (if leap then 29 else 28)
  else if m = 3 ∨ m = 5 ∨ m = 8 ∨ m = 10 then 30
  else 31

/-- Length of month `m` (0 = January) of year `y` in the Gregorian calendar. -/
def calendarMonthLength (y m : Int) : Int := lengthOfMonth (isLeapYear y) m

/-- The month key of Sakamoto's weekday method for month `m` (0 = January). -/
def monthKey (m : Int) : Int := [0, 3, 2, 5, 0, 3, 5, 1, 4, 6, 2, 4].getD m.toNat 0

/-- Weekday (0 = Sunday) of the first day of month `m` (0 = January) of year `y` in the
Gregorian calendar, by Sakamoto's method: with `c` the year, less one for January and
February, it is `c + c / 4 - c / 100 + c / 400 + key + 1` modulo 7.  It does not go
through day numbers or time values. -/
def calendarFirstWeekday (y m : Int) : Nat :=
  let c := if m < 2 then y - 1 else y
  ((c + c / 4 - c / 100 + c / 400 + monthKey m + 1) % 7).toNat

/-- Weekday (0 = Sunday) of day `d` of month `m` (0 = January) of year `y` in the Gregorian
calendar: `d - 1` days after the first day of the month. -/
def calendarWeekday (y m d : Int) : Int := ((calendarFirstWeekday y m : Int) + d - 1) % 7

/-! ## Reading a `Date` object in local time -/

/-- Day number of the local calendar day a `Date` object falls on. -/
def localDay (z : Zone) : JSDate → Option Int
  | JSDate.invalid => none
  | JSDate.time t => some (Day (LocalTime z t))

/-- Milliseconds since local midnight of a `Date` object. -/
def localTimeOfDay (z : Zone) : JSDate → Option Int
  | JSDate.invalid => none
  | JSDate.time t => some (TimeWithinDay (LocalTime z t))

/-! ## Vocabulary of the claims: valid date strings, calendar order -/

/-- Value of a decimal digit character. -/
def digitValue (c : Char) : Nat := c.toNat - 48

/-- The valid `YYYY-MM-DD` strings: four digits, a dash, two digits, a dash, two digits,
with the month from 01 to 12 and the day from 01 to the length of that month
in that year.  The result is the year, the month (1 to 12) and the day. -/
def decodeDate (s : String) : Option (Nat × Nat × Nat) :=
  match s.data with
  | [y1, y2, y3, y4, p, m1, m2, q, d1, d2] =>
    let y := 1000 * digitValue y1 + 100 * digitValue y2 + 10 * digitValue y3 + digitValue y4
    let m := 10 * digitValue m1 + digitValue m2
    let d := 10 * digitValue d1 + digitValue d2
    if p = '-' ∧ q = '-' ∧ y1.isDigit ∧ y2.isDigit ∧ y3.isDigit ∧ y4.isDigit ∧
        m1.isDigit ∧ m2.isDigit ∧ d1.isDigit ∧ d2.isDigit ∧
        1 ≤ m ∧ m ≤ 12 ∧ 1 ≤ d ∧ (d : Int) ≤ calendarMonthLength y ((m : Int) - 1) then
      some (y, m, d)
    else none
  | _ => none

/-- The `Date` object `n` days after `d`, at the same time of day. -/
def addDays (d : JSDate) (n : Int) : JSDate :=
  match d with
  | JSDate.invalid => JSDate.invalid
  | JSDate.time t => JSDate.time (t + n * msPerDay)

/-- Whether the date of an entry is the valid `YYYY-MM-DD` string of the local calendar
day of `d`: its year, month and day are those `d` reads in local time. -/
def datedOn (z : Zone) (e : Entry) (d : JSDate) : Bool :=
  match decodeDate e.date with
  | some (y, m, dd) =>
    getFullYear z d == some (y : Int) && getMonth z d == some ((m : Int) - 1) &&
      getDate z d == some (dd : Int)
  | none => false

/-- Day number of the calendar date with year `y`, month `m` (1 to 12) and day `d`. -/
def civilDay (y m d : Nat) : Int := MakeDay (y : Int) ((m : Int) - 1) (d : Int)

/-- Calendar order of two dates given as year, month and day. -/
def calendarLe (a b : Nat × Nat × Nat) : Prop :=
  a.1 < b.1 ∨ (a.1 = b.1 ∧ (a.2.1 < b.2.1 ∨ (a.2.1 = b.2.1 ∧ a.2.2 ≤ b.2.2)))

instance (a b : Nat × Nat × Nat) : Decidable (calendarLe a b) := by
  unfold calendarLe
  infer_instance

/-- Calendar order of two date strings; a string that is not a valid date is below
every string. -/
def dateStringLe (s t : String) : Prop :=
  match decodeDate s, decodeDate t with
  | some a, some b => calendarLe a b
  | none, _ => True
  | some _, none => False

instance (s t : String) : Decidable (dateStringLe s t) := by
  unfold dateStringLe
  split <;> infer_instance

/-! ## Sample inputs -/

/-- Scenario A of the specification: the history is empty, the date `"2024-03-10"` is
selected, the anchors are edited to `["Run", "Read", ""]` and the plan is submitted. -/
def scenarioA : State :=
  handleSubmit { initialState "2024-03-10" 2 2024 with anchors := ["Run", "Read", ""] }

/-- Scenario C of the specification before the check-in: after scenario A the journal
is `"Good day"` and the mood is 4. -/
def scenarioC : State := { scenarioA with journal := "Good day", mood := 4 }

/-- Three submissions, the last one for the date of the first. -/
def sampleDrafts : List Draft :=
  [⟨"2024-03-10", ["Run", "Read", ""], "", [false, false, false]⟩,
   ⟨"2024-03-11", ["Swim", "", ""], "walk", [true, false, false]⟩,
   ⟨"2024-03-10", ["Write", "", "Cook"], "", [false, false, true]⟩]

/-- Noon UTC on Wednesday 13 March 2024, as a time value. -/
def sampleNow : Int := 1710331200000

/-- A history with plans for the Saturday before the week of `sampleNow`, its Sunday, its
Saturday and the Sunday after, shown with the range "this week". -/
def sampleWeek : State :=
  submitAll (initialState "2024-03-13" 2 2024)
    [⟨"2024-03-09", ["a"], "", [false, false, false]⟩,
     ⟨"2024-03-10", ["b"], "", [true, false, false]⟩,
     ⟨"2024-03-16", ["c"], "", [false, false, false]⟩,
     ⟨"2024-03-17", ["d"], "", [false, false, false]⟩]

/-- The calendar of November 2018 with a plan, one task done, for Sunday 4 November. -/
def sampleNovember : State :=
  submitAll (initialState "2018-11-07" 10 2018)
    [⟨"2018-11-04", ["Run"], "", [true, false, false]⟩]

/-- A history with plans for the Saturday before the week of `sampleNowSaoPaulo`, its
Sunday, its Saturday and the Sunday after, shown with the range "this week". -/
def sampleWeekSaoPaulo : State :=
  submitAll (initialState "2018-11-07" 10 2018)
    [⟨"2018-11-03", ["a"], "", [false, false, false]⟩,
     ⟨"2018-11-04", ["b"], "", [true, false, false]⟩,
     ⟨"2018-11-10", ["c"], "", [false, false, false]⟩,
     ⟨"2018-11-11", ["d"], "", [false, false, false]⟩]

/-- The offset of Indian Standard Time, UTC+5:30, in milliseconds. -/
def sampleOffset : Int := 19800000

/-- The history of `sampleWeek` with 13 March 2024 selected, a date that has no entry. -/
def sampleNoEntry : State := { sampleWeek with dateInput := "2024-03-13" }

/-- A plan for Sunday 10 March 2024 is submitted, then the date field is cleared (the
date input then holds the empty string) and a second plan is submitted. -/
def sampleCleared : State :=
  submitAll (initialState "2024-03-13" 2 2024)
    [⟨"2024-03-10", ["Run"], "", [false, false, false]⟩,
     ⟨"", ["Walk"], "", [false, false, false]⟩]

/-- The zone America/Sao_Paulo around Sunday 4 November 2018, when daylight saving began
at local midnight: the offset is -3 h before 03:00 UTC of that day (time value
1541300400000) and -2 h from then on.  The local times from 00:00 to 01:00 of that day
were skipped and are read with the offset before the change; 01:00 of that day is the
local time value 1541293200000. -/
def saoPaulo2018 : Zone :=
  { offsetAt := fun t => if t < 1541300400000 then -10800000 else -7200000,
    offsetOfLocal := fun l => if l < 1541293200000 then -10800000 else -7200000 }

/-- The zone Pacific/Kiritimati around Saturday 31 December 1994, a day the island
skipped when it moved across the date line: the offset is -10 h before 10:00 UTC of
that day (time value 788868000000) and +14 h from then on.  The local times of the
whole of 31 December were skipped and are read with the offset before the change; 1
January 1995, 00:00, is the local time value 788918400000. -/
def kiritimati1994 : Zone :=
  { offsetAt := fun t => if t < 788868000000 then -36000000 else 50400000,
    offsetOfLocal := fun l => if l < 788918400000 then -36000000 else 50400000 }

/-- Noon UTC on Monday 2 January 1995, as a time value; in `kiritimati1994` it is Tuesday 3
January, 02:00. -/
def sampleNowKiritimati : Int := 789048000000

/-- Noon UTC on Wednesday 7 November 2018, as a time value. -/
def sampleNowSaoPaulo : Int := 1541592000000

/-! ## Loading an entry for editing -/

/-- The expression `value || fallback` on a number that may be missing: 0 and a missing
value are falsy and give the fallback. -/
def numberOr (value : Option Int) (fallback : Int) : Int :=
  match value with
  | some v => if v = 0 then fallback else v
  | none => fallback

/-- The anchors expression of `loadEntryForEdit`:
`anchors.length ? [...anchors, ...Array(3 - anchors.length).fill("")] : ["", "", ""]`.
The result `none` is the `RangeError` that `Array(n)` throws for a negative `n`. -/
def padAnchors (anchors : List String) : Option (List String) :=
  if anchors.length = 0 then some ["", "", ""]
  else if 3 < anchors.length then none
  else some (anchors ++ List.replicate (3 - anchors.length) "")

/-- Handler `loadEntryForEdit(date)`.  The result `none` is a thrown error: the `TypeError` of
reading `length` of missing anchors, or the `RangeError` of `padAnchors`; what
becomes of the updates queued before the throw is outside the model. -/
def loadEntryForEdit (s : State) (date : String) : Option State :=
  match findByDate s.history date with
  | none => some s
  | some entry =>
    (entry.anchors.bind padAnchors).map (fun newAnchors =>
      { s with
        dateInput := date,
        done := true,
        anchors := newAnchors,
        explore := entry.explore,
        journal := entry.journal,
        mood := numberOr entry.mood 3,
        completed := entry.completed.getD [false, false, false],
        checkIn := (match entry.mood with
          | some m => decide (0 < m)
          | none => false),
        viewMode := "daily" })

/-! ## Vocabulary of the claims: flags of the tasks of a draft -/

/-- The completion flags a draft holds for its non-blank tasks, in the order of the
tasks: `completed[j]` for every slot `j` whose anchor is not blank, a missing flag
reading as false. -/
def flagsOfTasks : List String → List Bool → List Bool
  | [], _ => []
  | a :: rest, flags =>
    if a ≠ "" then flags.headD false :: flagsOfTasks rest flags.tail
    else flagsOfTasks rest flags.tail

/-- A draft with a blank first slot: the task `"Run"` is in slot 1 and is completed.  It is
reached from the first render by typing `"Run"` into slot 1, submitting, ticking the
box of `"Run"` and pressing "Edit Plan". -/
def blankFirstDraft : State :=
  { toggleCompleted
      (handleSubmit { initialState "2024-03-10" 2 2024 with anchors := ["", "Run", ""] }) 1 with
    done := false }

/-- A history whose entry for `"2024-03-10"` has four anchors. -/
def fourAnchors : State :=
  { initialState "2024-03-10" 2 2024 with
    history := [{ date := "2024-03-10", anchors := some ["a", "b", "c", "d"], explore := "",
                  journal := "", mood := some 4, completed := some [true, false, false] }] }

/-! ## Debounced autosave

Time is counted in whole milliseconds.  The host keeps the pending timers and
fires each at its time; the only timers in the model are those the debounced
save sets, whose callback runs the `saveAllData` of the render that built it. -/

/-- The object `saveAllData` writes to the store: the state cells it reads and the time
of the write. -/
structure Snapshot where
  anchors : List String
  explore : String
  journal : String
  mood : Int
  done : Bool
  checkIn : Bool
  completed : List Bool
  history : List Entry
  dateInput : String
  lastSaved : Nat
  deriving DecidableEq, Repr

/-- Function `saveAllData()` of the render with state `s`, run at time `now`: the snapshot it
passes to `localStorage.setItem`. -/
def saveAllData (s : State) (now : Nat) : Snapshot :=
  { anchors := s.anchors, explore := s.explore, journal := s.journal, mood := s.mood,
    done := s.done, checkIn := s.checkIn, completed := s.completed, history := s.history,
    dateInput := s.dateInput, lastSaved := now }

/-- A pending timer of a debounced save: its id, the time it fires at and the state its
callback will save. -/
structure Timer where
  id : Nat
  fireAt : Nat
  captured : State
  deriving DecidableEq, Repr

/-- The host: its clock, the id of the next timer, the pending timers in the order they
were set, and the writes to the store so far, oldest first. -/
structure Host where
  now : Nat
  nextId : Nat
  timers : List Timer
  writes : List Snapshot
  deriving DecidableEq, Repr

/-- The call `setTimeout(callback, delay)`, returning the host and the id of the new timer. -/
def setTimeout (h : Host) (captured : State) (delay : Nat) : Host × Nat :=
  ({ h with nextId := h.nextId + 1,
            timers := h.timers ++ [{ id := h.nextId, fireAt := h.now + delay,
                                     captured := captured }] },
   h.nextId)

/-- The call `clearTimeout(id)`; `none` is `undefined`, which clears nothing. -/
def clearTimeout (h : Host) (id : Option Nat) : Host :=
  match id with
  | none => h
  | some i => { h with timers := h.timers.filter (fun t => t.id ≠ i) }

/-- The host runs until time `t`: the timers due by then fire in the order of their
times (timers of one time in the order they were set), each writing its
snapshot at its time. -/
def runUntil (h : Host) (t : Nat) : Host :=
  let due := (h.timers.filter (fun tm => tm.fireAt ≤ t)).insertionSort
    (fun x y => x.fireAt ≤ y.fireAt)
  { h with now := max h.now t,
           timers := h.timers.filter (fun tm => ¬ tm.fireAt ≤ t),
           writes := h.writes ++ due.map (fun tm => saveAllData tm.captured tm.fireAt) }

/-- A function returned by `debounce(func, wait)`: its variable `timeout`, the delay, and
the state that `func` saves. -/
structure Debounced where
  timeout : Option Nat
  wait : Nat
  captured : State
  deriving DecidableEq, Repr

/-- The call `debounce(() => { saveAllData(); }, wait)` in the render with state `s`: a new
function whose `timeout` is not yet set. -/
def debounce (s : State) (wait : Nat) : Debounced :=
  { timeout := none, wait := wait, captured := s }

/-- A call of a debounced function: `clearTimeout(timeout)`, then
`timeout = setTimeout(..., wait)`. -/
def callDebounced (d : Debounced) (h : Host) : Debounced × Host :=
  let h1 := clearTimeout h d.timeout
  let r := setTimeout h1 d.captured d.wait
  ({ d with timeout := some r.2 }, r.1)

/-- The component as the autosave sees it: the state of the last render, the function
`debouncedSave` that `useCallback` holds, and the host. -/
structure Autosave where
  state : State
  debouncedSave : Debounced
  host : Host
  deriving DecidableEq, Repr

/-- The first render, at time 0: `useCallback` keeps the debounced function built in this
render and the effect calls it. -/
def mount (s : State) : Autosave :=
  let r := callDebounced (debounce s 300) { now := 0, nextId := 1, timers := [], writes := [] }
  { state := s, debouncedSave := r.1, host := r.2 }

/-- A render at time `t` after a change of one of the cells in the dependency list
(`anchors`, `explore`, `journal`, `mood`, `done`, `checkIn`, `completed`, `history`, `dateInput`),
with the new state `s`.  A dependency of `useCallback` has changed, so it returns the
debounced function built in this render; `debouncedSave` is a dependency of the
effect, so the effect runs and calls it. -/
def stateChange (a : Autosave) (t : Nat) (s : State) : Autosave :=
  let h := runUntil a.host t
  let r := callDebounced (debounce s 300) h
  { state := s, debouncedSave := r.1, host := r.2 }

/-- Time passes until `t` without a state change. -/
def idle (a : Autosave) (t : Nat) : Autosave :=
  { a with host := runUntil a.host t }

/-- A sequence of state changes, each with its time and new state, oldest first. -/
def stateChanges (a : Autosave) (changes : List (Nat × State)) : Autosave :=
  changes.foldl (fun acc c => stateChange acc c.1 c.2) a

/-- The first render of the form for `"2024-03-10"`. -/
def typing0 : State := initialState "2024-03-10" 2 2024

/-- The form after typing `"R"` into the first anchor. -/
def typing1 : State := { typing0 with anchors := ["R", "", ""] }

/-- The form after typing `"Ru"` into the first anchor. -/
def typing2 : State := { typing0 with anchors := ["Ru", "", ""] }

/-- The component is mounted, one second passes, then `"R"` and `"u"` are typed into the
first anchor 100 ms apart. -/
def typingRun : Autosave :=
  stateChanges (idle (mount typing0) 1000) [(1000, typing1), (1100, typing2)]

/-! ## Lemmas on the date arithmetic -/

theorem DayFromYear_succ (y : Int) : DayFromYear (y + 1) = DayFromYear y + DaysInYear y := by
  unfold DayFromYear DaysInYear isLeapYear
  split <;> rename_i h <;> simp at h <;> omega

theorem DaysInYear_bounds (y : Int) : 365 ≤ DaysInYear y ∧ DaysInYear y ≤ 366 := by
  unfold DaysInYear
  split <;> omega

theorem DayFromYear_estimate (y : Int) :
    146097 * (y - 1970) - 800 ≤ 400 * DayFromYear y ∧
    400 * DayFromYear y ≤ 146097 * (y - 1970) + 800 := by
  unfold DayFromYear
  omega

theorem DayFromYear_mono {y z : Int} (h : y ≤ z) : DayFromYear y ≤ DayFromYear z := by
  unfold DayFromYear
  omega

/-- The computed year is the year ECMA-262 asks for: its first day is at or before `d`
and the first day of the next year is after `d`. -/
theorem yearFromDay_spec (d : Int) :
    DayFromYear (yearFromDay d) ≤ d ∧ d < DayFromYear (yearFromDay d + 1) := by
  unfold yearFromDay
  simp only
  generalize hy : 1970 + (400 * d) / 146097 = y0
  have h1 := DayFromYear_estimate (y0 - 1)
  have h2 := DayFromYear_estimate (y0 + 1 + 1)
  have h3 := DayFromYear_succ y0
  have h4 := DayFromYear_succ (y0 + 1)
  have h5 := DayFromYear_succ (y0 - 1)
  rw [Int.sub_add_cancel] at h5
  have h6 := DaysInYear_bounds y0
  have h7 := DaysInYear_bounds (y0 + 1)
  have h8 := DaysInYear_bounds (y0 - 1)
  split
  · rw [Int.sub_add_cancel]; omega
  · split <;> omega

theorem yearFromDay_unique {d y : Int} (h1 : DayFromYear y ≤ d) (h2 : d < DayFromYear (y + 1)) :
    yearFromDay d = y := by
  obtain ⟨h3, h4⟩ := yearFromDay_spec d
  by_contra hne
  rcases Int.lt_or_gt_of_ne hne with h | h
  · have := DayFromYear_mono (show yearFromDay d + 1 ≤ y by omega)
    omega
  · have := DayFromYear_mono (show y + 1 ≤ yearFromDay d by omega)
    omega

theorem Day_MakeDate (day time : Int) (h0 : 0 ≤ time) (h1 : time < msPerDay) :
    Day (MakeDate day time) = day := by
  unfold Day MakeDate msPerDay at *
  omega

theorem TimeWithinDay_MakeDate (day time : Int) (h0 : 0 ≤ time) (h1 : time < msPerDay) :
    TimeWithinDay (MakeDate day time) = time := by
  unfold TimeWithinDay MakeDate msPerDay at *
  omega

theorem TimeWithinDay_bounds (t : Int) : 0 ≤ TimeWithinDay t ∧ TimeWithinDay t < msPerDay := by
  unfold TimeWithinDay msPerDay
  omega

theorem zoneOffset_bounds (tza : Int) :
    -msPerDay < zoneOffset tza ∧ zoneOffset tza < msPerDay := by
  unfold zoneOffset msPerDay
  omega

theorem LocalTime_const (tza t : Int) : LocalTime tza t = t + zoneOffset tza := rfl

theorem UTC_const (tza t : Int) : UTC tza t = t - zoneOffset tza := rfl

theorem LocalTime_UTC (tza t : Int) : LocalTime tza (UTC tza t) = t := by
  rw [UTC_const, LocalTime_const]
  omega

theorem constZone_regular (tza : Int) : Zone.regular tza := by
  intro l
  have hz := zoneOffset_bounds tza
  refine ⟨hz.1, hz.2, ?_⟩
  rw [LocalTime_UTC]

theorem saoPaulo2018_regular : saoPaulo2018.regular := by
  intro l
  unfold saoPaulo2018 LocalTime UTC Day msPerDay
  simp only
  refine ⟨by split <;> omega, by split <;> omega, ?_⟩
  split <;> split <;> omega

/-- A local time on a day from -99999999 to 99999998, read as an instant in a regular
zone, is within the range of the time values of a `Date`. -/
theorem TimeClip_local (z : Zone) (hz : z.regular) (D tod : Int) (hD0 : -99999999 ≤ D)
    (hD1 : D ≤ 99999998) (h0 : 0 ≤ tod) (h1 : tod < msPerDay) :
    TimeClip (UTC z (MakeDate D tod)) = JSDate.time (UTC z (MakeDate D tod)) := by
  obtain ⟨hz0, hz1, -⟩ := hz (MakeDate D tod)
  unfold TimeClip
  rw [if_pos]
  unfold UTC
  generalize z.offsetOfLocal (MakeDate D tod) = c at hz0 hz1
  unfold MakeDate maxTime
  unfold msPerDay at *
  omega

/-- In a regular zone a local time, read as an instant, falls on its own day. -/
theorem Day_local (z : Zone) (hz : z.regular) (D tod : Int) (h0 : 0 ≤ tod)
    (h1 : tod < msPerDay) : Day (LocalTime z (UTC z (MakeDate D tod))) = D := by
  rw [(hz (MakeDate D tod)).2.2]
  exact Day_MakeDate D tod h0 h1

theorem DayWithinYear_bounds (t : Int) :
    0 ≤ DayWithinYear t ∧ DayWithinYear t < DaysInYear (YearFromTime t) := by
  unfold DayWithinYear YearFromTime
  have h := yearFromDay_spec (Day t)
  have h2 := DayFromYear_succ (yearFromDay (Day t))
  omega

theorem MonthFromTime_bounds (t : Int) : 0 ≤ MonthFromTime t ∧ MonthFromTime t ≤ 11 := by
  unfold MonthFromTime
  simp only
  omega

theorem monthStart_nonneg (leap : Bool) (m : Int) : 0 ≤ monthStart leap m := by
  unfold monthStart
  simp only
  omega

theorem monthStart_table (leap : Bool) :
    monthStart leap 0 = 0 ∧ monthStart leap 1 = 31 ∧
    monthStart leap 2 = 59 + (if leap then 1 else 0) ∧
    monthStart leap 3 = 90 + (if leap then 1 else 0) ∧
    monthStart leap 4 = 120 + (if leap then 1 else 0) ∧
    monthStart leap 5 = 151 + (if leap then 1 else 0) ∧
    monthStart leap 6 = 181 + (if leap then 1 else 0) ∧
    monthStart leap 7 = 212 + (if leap then 1 else 0) ∧
    monthStart leap 8 = 243 + (if leap then 1 else 0) ∧
    monthStart leap 9 = 273 + (if leap then 1 else 0) ∧
    monthStart leap 10 = 304 + (if leap then 1 else 0) ∧
    monthStart leap 11 = 334 + (if leap then 1 else 0) ∧
    monthStart leap 12 = 365 + (if leap then 1 else 0) := by
  cases leap <;> decide

theorem leapDay_cases (leap : Bool) :
    (if leap then (1 : Int) else 0) = 0 ∨ (if leap then (1 : Int) else 0) = 1 := by
  cases leap <;> simp

theorem monthStart_succ (leap : Bool) (m : Int) (h0 : 0 ≤ m) (h1 : m ≤ 11) :
    monthStart leap (m + 1) = monthStart leap m + lengthOfMonth leap m := by
  cases leap <;> interval_cases m <;> rfl

theorem monthStart_succ_le (leap : Bool) (m : Int) (h0 : 0 ≤ m) (h1 : m ≤ 11) :
    monthStart leap (m + 1) ≤ (if leap then 366 else 365) := by
  cases leap <;> interval_cases m <;> decide

theorem lengthOfMonth_bounds (leap : Bool) (m : Int) :
    28 ≤ lengthOfMonth leap m ∧ lengthOfMonth leap m ≤ 31 := by
  unfold lengthOfMonth
  split_ifs <;> omega

theorem monthStart_mono (leap : Bool) (a b : Int) (h0 : 0 ≤ a) (h1 : a ≤ b) (h2 : b ≤ 12) :
    monthStart leap a ≤ monthStart leap b := by
  revert h2
  refine Int.le_induction (m := a) (P := fun b => b ≤ 12 → monthStart leap a ≤ monthStart leap b)
    (fun _ => le_refl _) ?_ b h1
  intro n hn ih hn2
  have hs := monthStart_succ leap n (by omega) (by omega)
  have hl := lengthOfMonth_bounds leap n
  have := ih (by omega)
  omega

theorem ite_cases {c : Prop} [Decidable c] {a b m : Int} (h : (if c then a else b) = m) :
    (c ∧ a = m) ∨ (¬c ∧ b = m) := by
  by_cases hc : c
  · rw [if_pos hc] at h; exact Or.inl ⟨hc, h⟩
  · rw [if_neg hc] at h; exact Or.inr ⟨hc, h⟩

/-- The month read from the table contains the day of the year. -/
theorem month_table_sound (leap : Bool) (d m : Int) (h0 : 0 ≤ d)
    (h1 : d < if leap then 366 else 365)
    (hm : (let l : Int := if leap then 1 else 0
     if d < 31 then 0
     else if d < 59 + l then 1
     else if d < 90 + l then 2
     else if d < 120 + l then 3
     else if d < 151 + l then 4
     else if d < 181 + l then 5
     else if d < 212 + l then 6
     else if d < 243 + l then 7
     else if d < 273 + l then 8
     else if d < 304 + l then 9
     else if d < 334 + l then 10
     else (11 : Int)) = m) :
    (0 ≤ m ∧ m ≤ 11) ∧ monthStart leap m ≤ d ∧ d < monthStart leap (m + 1) := by
  have ht := monthStart_table leap
  have hl := leapDay_cases leap
  have h1' : d < 365 + (if leap then (1 : Int) else 0) := by
    cases leap <;> simpa using h1
  clear h1
  simp only at hm
  generalize (if leap = true then (1 : Int) else 0) = l at ht hl hm h1'
  obtain ⟨t0, t1, t2, t3, t4, t5, t6, t7, t8, t9, t10, t11, t12⟩ := ht
  iterate 11
    rcases ite_cases hm with ⟨c, e⟩ | ⟨c, hm2⟩
    · clear hm; subst e
      simp only [Int.reduceAdd, t0, t1, t2, t3, t4, t5, t6, t7, t8, t9, t10, t11, t12]
      clear t0 t1 t2 t3 t4 t5 t6 t7 t8 t9 t10 t11 t12
      omega
    clear hm
    rename' hm2 => hm
  subst hm
  simp only [Int.reduceAdd, t0, t1, t2, t3, t4, t5, t6, t7, t8, t9, t10, t11, t12]
  clear t0 t1 t2 t3 t4 t5 t6 t7 t8 t9 t10 t11 t12
  omega

/-- The table of `MonthFromTime` inverts `monthStart`. -/
theorem month_of_dayWithinYear (leap : Bool) (m d : Int) (h0 : 0 ≤ m) (h1 : m ≤ 11)
    (hlo : monthStart leap m ≤ d) (hhi : d < monthStart leap (m + 1)) :
    (let l : Int := if leap then 1 else 0
     if d < 31 then 0
     else if d < 59 + l then 1
     else if d < 90 + l then 2
     else if d < 120 + l then 3
     else if d < 151 + l then 4
     else if d < 181 + l then 5
     else if d < 212 + l then 6
     else if d < 243 + l then 7
     else if d < 273 + l then 8
     else if d < 304 + l then 9
     else if d < 334 + l then 10
     else (11 : Int)) = m := by
  have hd0 : 0 ≤ d := le_trans (monthStart_nonneg leap m) hlo
  have hd1 : d < if leap then 366 else 365 := lt_of_lt_of_le hhi (monthStart_succ_le leap m h0 h1)
  obtain ⟨⟨hb0, hb1⟩, hlo2, hhi2⟩ := month_table_sound leap d _ hd0 hd1 rfl
  generalize (let l : Int := if leap then 1 else 0
     if d < 31 then 0
     else if d < 59 + l then 1
     else if d < 90 + l then 2
     else if d < 120 + l then 3
     else if d < 151 + l then 4
     else if d < 181 + l then 5
     else if d < 212 + l then 6
     else if d < 243 + l then 7
     else if d < 273 + l then 8
     else if d < 304 + l then 9
     else if d < 334 + l then 10
     else (11 : Int)) = k at hb0 hb1 hlo2 hhi2 ⊢
  by_contra hne
  rcases Int.lt_or_gt_of_ne hne with h | h
  · have := monthStart_mono leap (k + 1) m (by omega) (by omega) (by omega)
    omega
  · have := monthStart_mono leap (m + 1) k (by omega) (by omega) (by omega)
    omega

/-- Going from a time value to its year, month and day of month and back to a day number
gives the day of the time value; with another day of month `n` the day number
moves by the difference. -/
theorem MakeDay_of_time (t n : Int) :
    MakeDay (YearFromTime t) (MonthFromTime t) n = Day t - DateFromTime t + n := by
  have hm := MonthFromTime_bounds t
  have h1 : MonthFromTime t / 12 = 0 := by omega
  have h2 : MonthFromTime t % 12 = MonthFromTime t := by omega
  unfold MakeDay DateFromTime InLeapYear DayWithinYear
  simp only [h1, h2, Int.add_zero]
  omega

theorem MakeDay_in_range (y m dt : Int) (hm0 : 0 ≤ m) (hm1 : m ≤ 11) :
    MakeDay y m dt = DayFromYear y + monthStart (isLeapYear y) m + dt - 1 := by
  have hdiv : m / 12 = 0 := by omega
  have hmod : m % 12 = m := by omega
  unfold MakeDay
  simp only [hdiv, hmod, Int.add_zero]

/-- The year, month and day of month of a day of the calendar are read back from its
day number. -/
theorem civil_of_MakeDay (t y m dt : Int) (hm0 : 0 ≤ m) (hm1 : m ≤ 11) (hd0 : 1 ≤ dt)
    (hd1 : dt ≤ calendarMonthLength y m) (ht : Day t = MakeDay y m dt) :
    YearFromTime t = y ∧ MonthFromTime t = m ∧ DateFromTime t = dt := by
  rw [MakeDay_in_range y m dt hm0 hm1] at ht
  have hsucc := DayFromYear_succ y
  have hnn := monthStart_nonneg (isLeapYear y) m
  have hms := monthStart_succ (isLeapYear y) m hm0 hm1
  have hle := monthStart_succ_le (isLeapYear y) m hm0 hm1
  unfold calendarMonthLength at hd1
  have hyear : YearFromTime t = y := by
    unfold YearFromTime
    apply yearFromDay_unique
    · omega
    · rw [hsucc]
      unfold DaysInYear
      omega
  have hdwy : DayWithinYear t = monthStart (isLeapYear y) m + dt - 1 := by
    unfold DayWithinYear; rw [hyear]; omega
  have hmonth : MonthFromTime t = m := by
    unfold MonthFromTime InLeapYear
    rw [hyear, hdwy]
    exact month_of_dayWithinYear (isLeapYear y) m _ hm0 hm1 (by omega) (by omega)
  refine ⟨hyear, hmonth, ?_⟩
  unfold DateFromTime InLeapYear
  rw [hmonth, hyear, hdwy]
  omega

/-- Day 0 of the month after `m` is the last day of month `m`. -/
theorem MakeDay_zero_next (y m : Int) (hm0 : 0 ≤ m) (hm1 : m ≤ 11) :
    MakeDay y (m + 1) 0 = MakeDay y m (calendarMonthLength y m) := by
  rw [MakeDay_in_range y m _ hm0 hm1]
  have hms := monthStart_succ (isLeapYear y) m hm0 hm1
  unfold calendarMonthLength
  by_cases h11 : m = 11
  · subst h11
    have hsucc := DayFromYear_succ y
    unfold DaysInYear at hsucc
    have e : MakeDay y (11 + 1) 0 = DayFromYear (y + 1) - 1 := by
      unfold MakeDay
      have e1 : ((11 : Int) + 1) / 12 = 1 := by decide
      have e2 : ((11 : Int) + 1) % 12 = 0 := by decide
      simp only [e1, e2]
      have : monthStart (isLeapYear (y + 1)) 0 = 0 := by cases isLeapYear (y + 1) <;> rfl
      omega
    rw [e, hsucc]
    cases hl : isLeapYear y <;> simp [hl, monthStart, lengthOfMonth] <;> omega
  · rw [MakeDay_in_range y (m + 1) 0 (by omega) (by omega)]
    omega

/-- The day of month of a time value lies within its month. -/
theorem DateFromTime_bounds (t : Int) :
    1 ≤ DateFromTime t ∧ DateFromTime t ≤ calendarMonthLength (YearFromTime t) (MonthFromTime t) := by
  have h := DayWithinYear_bounds t
  have hm := MonthFromTime_bounds t
  unfold DaysInYear at h
  have hs := (month_table_sound (InLeapYear t) (DayWithinYear t) (MonthFromTime t) h.1 h.2 rfl).2
  have hsucc := monthStart_succ (InLeapYear t) (MonthFromTime t) hm.1 hm.2
  unfold DateFromTime calendarMonthLength
  unfold InLeapYear at *
  omega

theorem isLeapYear_iff (y : Int) :
    isLeapYear y = true ↔ (y % 4 = 0 ∧ (y % 100 ≠ 0 ∨ y % 400 = 0)) := by
  simp [isLeapYear]

theorem monthKey_table :
    monthKey 0 = 0 ∧ monthKey 1 = 3 ∧ monthKey 2 = 2 ∧ monthKey 3 = 5 ∧ monthKey 4 = 0 ∧
    monthKey 5 = 3 ∧ monthKey 6 = 5 ∧ monthKey 7 = 1 ∧ monthKey 8 = 4 ∧ monthKey 9 = 6 ∧
    monthKey 10 = 2 ∧ monthKey 11 = 4 := by
  decide

/-- The day number of 1 January in terms of the quotients of the year before. -/
theorem DayFromYear_prev (y : Int) :
    DayFromYear y = 365 * y + (y - 1) / 4 - (y - 1) / 100 + (y - 1) / 400 - 719527 := by
  unfold DayFromYear
  omega

/-- The leap day of a year in terms of the quotients of the year and of the year before. -/
theorem leapDay_quotients (y : Int) :
    (if isLeapYear y then (1 : Int) else 0) =
      (y / 4 - (y - 1) / 4) - (y / 100 - (y - 1) / 100) + (y / 400 - (y - 1) / 400) := by
  have hl := isLeapYear_iff y
  cases hleap : isLeapYear y <;>
    simp only [hleap, if_true, Bool.false_eq_true, if_false, false_iff, true_iff] at hl ⊢ <;>
    omega

/-- Sakamoto's method gives the weekday of the day number of the first of the month. -/
theorem calendarFirstWeekday_eq (y m : Int) (hm0 : 0 ≤ m) (hm1 : m ≤ 11) :
    ((calendarFirstWeekday y m : Nat) : Int) = (MakeDay y m 1 + 4) % 7 := by
  rw [MakeDay_in_range y m 1 hm0 hm1, DayFromYear_prev]
  have ht := monthStart_table (isLeapYear y)
  have hl := leapDay_quotients y
  have hk := monthKey_table
  unfold calendarFirstWeekday
  simp only
  rw [Int.toNat_of_nonneg (Int.emod_nonneg _ (by decide))]
  generalize (if isLeapYear y = true then (1 : Int) else 0) = l at ht hl
  obtain ⟨t0, t1, t2, t3, t4, t5, t6, t7, t8, t9, t10, t11, -⟩ := ht
  obtain ⟨k0, k1, k2, k3, k4, k5, k6, k7, k8, k9, k10, k11⟩ := hk
  interval_cases m <;>
    simp only [Int.reduceLT, if_true, if_false, t0, t1, t2, t3, t4, t5, t6, t7, t8, t9, t10, t11,
      k0, k1, k2, k3, k4, k5, k6, k7, k8, k9, k10, k11] <;>
    clear t0 t1 t2 t3 t4 t5 t6 t7 t8 t9 t10 t11 k0 k1 k2 k3 k4 k5 k6 k7 k8 k9 k10 k11 <;>
    omega

/-- The weekday of a time value is the weekday the Gregorian calendar gives to its year,
month and day of month. -/
theorem WeekDay_calendar (t : Int) :
    WeekDay t = calendarWeekday (YearFromTime t) (MonthFromTime t) (DateFromTime t) := by
  have hm := MonthFromTime_bounds t
  have h1 := MakeDay_of_time t 1
  have h2 := calendarFirstWeekday_eq (YearFromTime t) (MonthFromTime t) hm.1 hm.2
  unfold WeekDay calendarWeekday
  omega

/-! ## Week range -/

theorem setDate_time (z : Zone) (t n : Int) :
    setDate z (JSDate.time t) (some n) =
      TimeClip (UTC z (MakeDate (Day (LocalTime z t) - DateFromTime (LocalTime z t) + n)
        (TimeWithinDay (LocalTime z t)))) := by
  simp only [setDate, MakeDay_of_time]

/-- The two dates `getWeekRange` returns in a regular zone, in closed form, when the
first day of the week is a day from -99999999 to 99999992: the instants that the
zone reads local midnight of that day and the last millisecond of the day six days
on as. -/
theorem getWeekRange_eq (z : Zone) (hz : z.regular) (now offset : Int)
    (hlo : -99999999 ≤ Day (LocalTime z now) - WeekDay (LocalTime z now) + 7 * offset)
    (hhi : Day (LocalTime z now) - WeekDay (LocalTime z now) + 7 * offset ≤ 99999992) :
    getWeekRange z now offset =
      (JSDate.time (UTC z (MakeDate
          (Day (LocalTime z now) - WeekDay (LocalTime z now) + 7 * offset) 0)),
       JSDate.time (UTC z (MakeDate
          (Day (LocalTime z now) - WeekDay (LocalTime z now) + 7 * offset + 6)
          (MakeTime 23 59 59 999)))) := by
  have hb := TimeWithinDay_bounds (LocalTime z now)
  have hz0 : MakeTime 0 0 0 0 = 0 := by decide
  have e1 : Day (LocalTime z now) - DateFromTime (LocalTime z now) +
      (DateFromTime (LocalTime z now) - WeekDay (LocalTime z now) + offset * 7) =
      Day (LocalTime z now) - WeekDay (LocalTime z now) + 7 * offset := by omega
  generalize Day (LocalTime z now) - WeekDay (LocalTime z now) + 7 * offset = S
    at hlo hhi e1 ⊢
  have c1 := TimeClip_local z hz S (TimeWithinDay (LocalTime z now)) hlo (by omega) hb.1 hb.2
  have d1 := Day_local z hz S (TimeWithinDay (LocalTime z now)) hb.1 hb.2
  have c2 := TimeClip_local z hz S 0 hlo (by omega) (by decide) (by decide)
  have d2 := Day_local z hz S 0 (by decide) (by decide)
  have hb2 := TimeWithinDay_bounds (LocalTime z (UTC z (MakeDate S 0)))
  have e3 : S - DateFromTime (LocalTime z (UTC z (MakeDate S 0))) +
      (DateFromTime (LocalTime z (UTC z (MakeDate S 0))) + 6) = S + 6 := by omega
  have c3 := TimeClip_local z hz (S + 6) (TimeWithinDay (LocalTime z (UTC z (MakeDate S 0))))
    (by omega) (by omega) hb2.1 hb2.2
  have d3 := Day_local z hz (S + 6) (TimeWithinDay (LocalTime z (UTC z (MakeDate S 0))))
    hb2.1 hb2.2
  have c4 := TimeClip_local z hz (S + 6) (MakeTime 23 59 59 999) (by omega) (by omega)
    (by decide) (by decide)
  simp only [getWeekRange, getDay, getDate, setDate_time, e1, c1, setHours, d1, hz0, c2,
    Option.map, d2, e3, c3, d3, c4]

/-- C8, as the code has it: in every regular time zone (one in which no transition moves a local
time to another day; every zone of constant offset is one), for every value of today
and every integer `offset` for which the seven days lie more than a day inside the
range of the time values of a `Date` (the first of them is a day from -99999999 to
99999992), `getWeekRange(offset)` returns a start date on a Sunday, the day of the most
recent Sunday at or before today (today minus its weekday, which is between 0 and
6) shifted by `7 * offset` days, and an end date on the Saturday 6 days later; the
year, month and day of month that the two dates read are a Sunday and a Saturday of
the Gregorian calendar; the start date is the instant the zone reads 00:00:00.000 of
its day as and the end date the instant it reads 23:59:59.999 of its day as, so that
the start is at 00:00:00.000 and the end at 23:59:59.999 whenever the zone does not
skip these local times; on a Wednesday with offset 0 the start is 3 days before
today and the end 3 days after. -/
theorem getWeekRange_spec (z : Zone) (hz : z.regular) (now offset : Int)
    (hlo : -99999999 ≤ Day (LocalTime z now) - WeekDay (LocalTime z now) + 7 * offset)
    (hhi : Day (LocalTime z now) - WeekDay (LocalTime z now) + 7 * offset ≤ 99999992) :
    (0 ≤ WeekDay (LocalTime z now) ∧ WeekDay (LocalTime z now) ≤ 6) ∧
    WeekDay (MakeDate (Day (LocalTime z now) - WeekDay (LocalTime z now)) 0) = 0 ∧
    localDay z (getWeekRange z now offset).1 =
      some (Day (LocalTime z now) - WeekDay (LocalTime z now) + 7 * offset) ∧
    getDay z (getWeekRange z now offset).1 = some 0 ∧
    localDay z (getWeekRange z now offset).2 =
      some (Day (LocalTime z now) - WeekDay (LocalTime z now) + 7 * offset + 6) ∧
    getDay z (getWeekRange z now offset).2 = some 6 ∧
    (∃ y m d, getFullYear z (getWeekRange z now offset).1 = some y ∧
      getMonth z (getWeekRange z now offset).1 = some m ∧
      getDate z (getWeekRange z now offset).1 = some d ∧ calendarWeekday y m d = 0) ∧
    (∃ y m d, getFullYear z (getWeekRange z now offset).2 = some y ∧
      getMonth z (getWeekRange z now offset).2 = some m ∧
      getDate z (getWeekRange z now offset).2 = some d ∧ calendarWeekday y m d = 6) ∧
    (getWeekRange z now offset).1 = JSDate.time (UTC z (MakeDate
      (Day (LocalTime z now) - WeekDay (LocalTime z now) + 7 * offset) 0)) ∧
    (getWeekRange z now offset).2 = JSDate.time (UTC z (MakeDate
      (Day (LocalTime z now) - WeekDay (LocalTime z now) + 7 * offset + 6) (msPerDay - 1))) ∧
    (LocalTime z (UTC z (MakeDate
        (Day (LocalTime z now) - WeekDay (LocalTime z now) + 7 * offset) 0)) =
      MakeDate (Day (LocalTime z now) - WeekDay (LocalTime z now) + 7 * offset) 0 →
      localTimeOfDay z (getWeekRange z now offset).1 = some 0) ∧
    (LocalTime z (UTC z (MakeDate
        (Day (LocalTime z now) - WeekDay (LocalTime z now) + 7 * offset + 6) (msPerDay - 1))) =
      MakeDate (Day (LocalTime z now) - WeekDay (LocalTime z now) + 7 * offset + 6)
        (msPerDay - 1) →
      localTimeOfDay z (getWeekRange z now offset).2 = some (msPerDay - 1)) ∧
    (WeekDay (LocalTime z now) = 3 → offset = 0 →
      localDay z (getWeekRange z now offset).1 = some (Day (LocalTime z now) - 3) ∧
      localDay z (getWeekRange z now offset).2 = some (Day (LocalTime z now) + 3)) := by
  have hend : MakeTime 23 59 59 999 = msPerDay - 1 := by decide
  have hd1 : ∀ d : Int, Day (LocalTime z (UTC z (MakeDate d 0))) = d :=
    fun d => Day_local z hz d 0 (by decide) (by decide)
  have hd2 : ∀ d : Int, Day (LocalTime z (UTC z (MakeDate d (msPerDay - 1)))) = d :=
    fun d => Day_local z hz d _ (by decide) (by decide)
  have hm1 : ∀ d : Int, Day (MakeDate d 0) = d := fun d => Day_MakeDate d 0 (by decide) (by decide)
  have hwd : ∀ t : Int, WeekDay t = (Day t + 4) % 7 := fun _ => rfl
  rw [getWeekRange_eq z hz now offset hlo hhi, hend]
  simp only [localDay, localTimeOfDay, getDay, getFullYear, getMonth, getDate, hd1, hd2,
    Option.some.injEq]
  refine ⟨by rw [hwd]; omega, by rw [hwd, hwd, hm1]; omega, trivial, ?_, trivial, ?_,
    ⟨_, _, _, rfl, rfl, rfl, ?_⟩, ⟨_, _, _, rfl, rfl, rfl, ?_⟩, trivial, trivial, ?_, ?_, ?_⟩
  · rw [hwd, hwd, hd1]
    omega
  · rw [hwd, hwd, hd2]
    omega
  · rw [← WeekDay_calendar, hwd, hwd, hd1]
    omega
  · rw [← WeekDay_calendar, hwd, hwd, hd2]
    omega
  · intro h
    rw [h]
    exact TimeWithinDay_MakeDate _ _ (by decide) (by decide)
  · intro h
    rw [h]
    exact TimeWithinDay_MakeDate _ _ (by decide) (by decide)
  · intro h3 h0
    subst h0
    constructor <;> omega

/-! ## Calendar projector -/

theorem newDate_some (z : Zone) (y m dt : Int) :
    newDate z (some y) (some m) (some dt) =
      TimeClip (UTC z (MakeDate (MakeDay (fullYear y) m dt) 0)) := by
  simp only [newDate]
  rfl

theorem Day_midnight (d : Int) : Day (MakeDate d 0) = d :=
  Day_MakeDate d 0 (by decide) (by decide)

/-- The days of the years -271820 to 275759 lie more than a day inside the range of the
time values of a `Date`. -/
theorem MakeDay_bounds (y m dt : Int) (hy0 : -271820 ≤ y) (hy1 : y ≤ 275759) (hm0 : 0 ≤ m)
    (hm1 : m ≤ 11) (hd0 : 1 ≤ dt) (hd1 : dt ≤ calendarMonthLength y m) :
    -99999999 ≤ MakeDay y m dt ∧ MakeDay y m dt ≤ 99999998 := by
  rw [MakeDay_in_range y m dt hm0 hm1]
  have hnn := monthStart_nonneg (isLeapYear y) m
  have hms := monthStart_succ (isLeapYear y) m hm0 hm1
  have hle := monthStart_succ_le (isLeapYear y) m hm0 hm1
  have hsucc := DayFromYear_succ y
  have hlow := DayFromYear_mono hy0
  have hhigh := DayFromYear_mono (show y + 1 ≤ 275760 by omega)
  have e0 : DayFromYear (-271820) = -99999744 := by decide
  have e1 : DayFromYear 275760 = 99999744 := by decide
  unfold DaysInYear at hsucc
  unfold calendarMonthLength at hd1
  constructor <;> omega

/-- The call `new Date(y, m, dt)` for a day of the calendar in a regular zone, when the
year the constructor takes `y` for is from -271820 to 275759. -/
theorem newDate_valid (z : Zone) (hz : z.regular) (y m dt : Int) (hy0 : -271820 ≤ fullYear y)
    (hy1 : fullYear y ≤ 275759) (hm0 : 0 ≤ m) (hm1 : m ≤ 11) (hd0 : 1 ≤ dt)
    (hd1 : dt ≤ calendarMonthLength (fullYear y) m) :
    newDate z (some y) (some m) (some dt) =
      JSDate.time (UTC z (MakeDate (MakeDay (fullYear y) m dt) 0)) := by
  obtain ⟨b0, b1⟩ := MakeDay_bounds (fullYear y) m dt hy0 hy1 hm0 hm1 hd0 hd1
  rw [newDate_some, TimeClip_local z hz _ 0 b0 b1 (by decide) (by decide)]

/-- The components of `new Date(y, m, dt)` for a day of the calendar. -/
theorem newDate_civil (z : Zone) (hz : z.regular) (y m dt : Int) (hy0 : -271820 ≤ fullYear y)
    (hy1 : fullYear y ≤ 275759) (hm0 : 0 ≤ m) (hm1 : m ≤ 11) (hd0 : 1 ≤ dt)
    (hd1 : dt ≤ calendarMonthLength (fullYear y) m) :
    getFullYear z (newDate z (some y) (some m) (some dt)) = some (fullYear y) ∧
    getMonth z (newDate z (some y) (some m) (some dt)) = some m ∧
    getDate z (newDate z (some y) (some m) (some dt)) = some dt := by
  rw [newDate_valid z hz y m dt hy0 hy1 hm0 hm1 hd0 hd1]
  simp only [getFullYear, getMonth, getDate, Option.some.injEq]
  exact civil_of_MakeDay _ _ _ _ hm0 hm1 hd0 hd1 (Day_local z hz _ 0 (by decide) (by decide))

/-- The loop bound `daysInMonth` is the length of the month in the year the `Date`
constructor takes `year` for. -/
theorem daysInMonth_eq (z : Zone) (hz : z.regular) (year month : Int)
    (hy0 : -271820 ≤ fullYear year) (hy1 : fullYear year ≤ 275759) (hm0 : 0 ≤ month)
    (hm1 : month ≤ 11) :
    (daysInMonth z year month : Int) = calendarMonthLength (fullYear year) month := by
  have hlen := lengthOfMonth_bounds (isLeapYear (fullYear year)) month
  have hlen1 : 1 ≤ calendarMonthLength (fullYear year) month := by
    unfold calendarMonthLength; omega
  have h := civil_of_MakeDay
    (LocalTime z (UTC z (MakeDate (MakeDay (fullYear year) (month + 1) 0) 0)))
    (fullYear year) month (calendarMonthLength (fullYear year) month) hm0 hm1
    hlen1 (le_refl _)
    (by rw [Day_local z hz _ 0 (by decide) (by decide), MakeDay_zero_next _ _ hm0 hm1])
  obtain ⟨b0, b1⟩ := MakeDay_bounds (fullYear year) month
    (calendarMonthLength (fullYear year) month) hy0 hy1 hm0 hm1 hlen1 (le_refl _)
  rw [← MakeDay_zero_next _ _ hm0 hm1] at b0 b1
  unfold daysInMonth
  rw [newDate_some, TimeClip_local z hz _ 0 b0 b1 (by decide) (by decide)]
  simp only [getDate, Option.getD_some, h.2.2]
  unfold calendarMonthLength
  omega

/-- The loop bound `startingDayOfWeek` is the weekday of the first day of the month in
the year the `Date` constructor takes `year` for. -/
theorem firstWeekdayOfMonth_eq (z : Zone) (hz : z.regular) (year month : Int)
    (hy0 : -271820 ≤ fullYear year) (hy1 : fullYear year ≤ 275759) (hm0 : 0 ≤ month)
    (hm1 : month ≤ 11) :
    firstWeekdayOfMonth z year month = calendarFirstWeekday (fullYear year) month := by
  have hlen := lengthOfMonth_bounds (isLeapYear (fullYear year)) month
  have hv := newDate_valid z hz year month 1 hy0 hy1 hm0 hm1 (le_refl _)
    (by unfold calendarMonthLength; omega)
  have hs := calendarFirstWeekday_eq (fullYear year) month hm0 hm1
  unfold firstWeekdayOfMonth
  rw [hv]
  simp only [getDay, Option.getD_some, WeekDay, Day_local z hz _ 0 (by decide) (by decide)]
  omega

theorem fullYear_of_ge (y : Int) (h : 100 ≤ y) : fullYear y = y := by
  unfold fullYear
  split
  · omega
  · rfl

theorem fullYear_of_neg (y : Int) (h : y < 0) : fullYear y = y := by
  unfold fullYear
  split
  · omega
  · rfl

theorem calendarFirstWeekday_le (y m : Int) : calendarFirstWeekday y m ≤ 6 := by
  unfold calendarFirstWeekday
  simp only
  omega

/-- C7, as the code has it: in every regular time zone (one in which no transition moves
a local time to another day; every zone of constant offset is one), for every
history, month index 0 to 11 and year from -271820 to 275759 that is not one of 0 to
99, `generateCalendarDays` returns as many cells as the weekday of the first day of the
month (0 = Sunday) plus the length of the month, both as the Gregorian calendar gives
them; the first cells, as many as that weekday, are blank placeholders and the rest
carry the day numbers 1, 2, ... in order up to the length of the month; the two loop
bounds of the code are that weekday, which is at most 6, and that length, which is
31 for December and 29 or 28 for February by the leap-year rule. -/
theorem generateCalendarDays_spec (z : Zone) (hz : z.regular) (s : State)
    (hm0 : 0 ≤ s.calendarMonth) (hm1 : s.calendarMonth ≤ 11)
    (hy0 : -271820 ≤ s.calendarYear) (hy1 : s.calendarYear ≤ 275759)
    (hy : s.calendarYear < 0 ∨ 99 < s.calendarYear) :
    (generateCalendarDays z s).length =
      calendarFirstWeekday s.calendarYear s.calendarMonth +
        (calendarMonthLength s.calendarYear s.calendarMonth).toNat ∧
    (generateCalendarDays z s).take (calendarFirstWeekday s.calendarYear s.calendarMonth) =
      List.replicate (calendarFirstWeekday s.calendarYear s.calendarMonth) CalendarCell.blank ∧
    (∀ k, k < (calendarMonthLength s.calendarYear s.calendarMonth).toNat →
      ∃ date hasEntry isCheckedIn mood anchors tasksCompleted numberOfTasks,
        (generateCalendarDays z s)[calendarFirstWeekday s.calendarYear s.calendarMonth + k]? =
          some (CalendarCell.day (k + 1) date hasEntry isCheckedIn mood anchors tasksCompleted
            numberOfTasks)) ∧
    firstWeekdayOfMonth z s.calendarYear s.calendarMonth =
      calendarFirstWeekday s.calendarYear s.calendarMonth ∧
    calendarFirstWeekday s.calendarYear s.calendarMonth ≤ 6 ∧
    (daysInMonth z s.calendarYear s.calendarMonth : Int) =
      calendarMonthLength s.calendarYear s.calendarMonth ∧
    (s.calendarMonth = 11 → daysInMonth z s.calendarYear s.calendarMonth = 31) ∧
    (s.calendarMonth = 1 → daysInMonth z s.calendarYear s.calendarMonth =
      if isLeapYear s.calendarYear then 29 else 28) := by
  have hfy : fullYear s.calendarYear = s.calendarYear := by
    rcases hy with h | h
    · exact fullYear_of_neg _ h
    · exact fullYear_of_ge _ (by omega)
  have hdim := daysInMonth_eq z hz s.calendarYear s.calendarMonth (by rw [hfy]; exact hy0)
    (by rw [hfy]; exact hy1) hm0 hm1
  have hfw := firstWeekdayOfMonth_eq z hz s.calendarYear s.calendarMonth (by rw [hfy]; exact hy0)
    (by rw [hfy]; exact hy1) hm0 hm1
  rw [hfy] at hdim hfw
  have hnat : (calendarMonthLength s.calendarYear s.calendarMonth).toNat =
      daysInMonth z s.calendarYear s.calendarMonth := by
    rw [← hdim]
    exact Int.toNat_ofNat _
  rw [hnat, ← hfw]
  refine ⟨?_, ?_, ?_, rfl, ?_, hdim, ?_, ?_⟩
  · simp [generateCalendarDays]
  · simp [generateCalendarDays, List.take_append_eq_append_take]
  · intro k hk
    have h : (generateCalendarDays z s)[firstWeekdayOfMonth z s.calendarYear s.calendarMonth
        + k]? = some (dayCell z s (k + 1)) := by
      unfold generateCalendarDays
      simp only
      rw [List.getElem?_append_right (by simp)]
      simp only [List.length_replicate, Nat.add_sub_cancel_left]
      rw [List.getElem?_map, List.getElem?_range hk]
      rfl
    exact ⟨_, _, _, _, _, _, _, h⟩
  · rw [hfw]
    exact calendarFirstWeekday_le _ _
  · intro h11
    have : calendarMonthLength s.calendarYear s.calendarMonth = 31 := by
      rw [h11]; unfold calendarMonthLength lengthOfMonth; simp
    omega
  · intro h1
    have : calendarMonthLength s.calendarYear s.calendarMonth =
        if isLeapYear s.calendarYear then 29 else 28 := by
      rw [h1]; unfold calendarMonthLength lengthOfMonth; simp
    rw [this] at hdim
    split <;> rename_i hl <;> simp only [hl, if_true, Bool.false_eq_true, if_false] at hdim <;> omega

/-! ## Digits and date strings -/

theorem isDigit_cases (c : Char) (h : c.isDigit = true) :
    c = '0' ∨ c = '1' ∨ c = '2' ∨ c = '3' ∨ c = '4' ∨ c = '5' ∨ c = '6' ∨ c = '7' ∨
      c = '8' ∨ c = '9' := by
  have hb : 48 ≤ c.toNat ∧ c.toNat ≤ 57 := by
    simp only [Char.isDigit, Bool.and_eq_true, decide_eq_true_eq] at h
    have h1 : (48 : UInt32) ≤ c.val := h.1
    have h2 : c.val ≤ (57 : UInt32) := h.2
    rw [UInt32.le_def] at h1 h2
    exact ⟨h1, h2⟩
  have hc : c = Char.ofNat c.toNat := (Char.ofNat_toNat c).symm
  obtain ⟨h1, h2⟩ := hb
  generalize c.toNat = n at hc h1 h2
  subst hc
  interval_cases n <;> simp

theorem digit_ne_dash (c : Char) (h : c.isDigit = true) : c ≠ '-' := by
  rcases isDigit_cases c h with h | h | h | h | h | h | h | h | h | h <;> subst h <;> decide

theorem digitValue_le (c : Char) (h : c.isDigit = true) : digitValue c ≤ 9 := by
  rcases isDigit_cases c h with h | h | h | h | h | h | h | h | h | h <;> subst h <;> decide

theorem digitChar_digitValue (c : Char) (h : c.isDigit = true) :
    Nat.digitChar (digitValue c) = c := by
  rcases isDigit_cases c h with h | h | h | h | h | h | h | h | h | h <;> subst h <;> decide

/-- Splitting a date of the shape `dddd-dd-dd`. -/
theorem splitOn_date (y1 y2 y3 y4 m1 m2 d1 d2 : Char)
    (hy1 : y1 ≠ '-') (hy2 : y2 ≠ '-') (hy3 : y3 ≠ '-') (hy4 : y4 ≠ '-')
    (hm1 : m1 ≠ '-') (hm2 : m2 ≠ '-') (hd1 : d1 ≠ '-') (hd2 : d2 ≠ '-') :
    splitOn '-' [y1, y2, y3, y4, '-', m1, m2, '-', d1, d2] =
      [[y1, y2, y3, y4], [m1, m2], [d1, d2]] := by
  simp [splitOn, hy1, hy2, hy3, hy4, hm1, hm2, hd1, hd2]

theorem jsNumber_two (a b : Char) (ha : a.isDigit = true) (hb : b.isDigit = true) :
    jsNumber [a, b] = some (Int.ofNat (10 * digitValue a + digitValue b)) := by
  simp [jsNumber, ha, hb, digitValue]
  omega

theorem jsNumber_four (a b c d : Char) (ha : a.isDigit = true) (hb : b.isDigit = true)
    (hc : c.isDigit = true) (hd : d.isDigit = true) :
    jsNumber [a, b, c, d] =
      some (Int.ofNat (1000 * digitValue a + 100 * digitValue b + 10 * digitValue c +
        digitValue d)) := by
  simp [jsNumber, ha, hb, hc, hd, digitValue]
  omega

/-- The shape of a valid date string. -/
theorem decodeDate_some {s : String} {y m d : Nat} (h : decodeDate s = some (y, m, d)) :
    ∃ y1 y2 y3 y4 m1 m2 d1 d2 : Char,
      s.data = [y1, y2, y3, y4, '-', m1, m2, '-', d1, d2] ∧
      y1.isDigit = true ∧ y2.isDigit = true ∧ y3.isDigit = true ∧ y4.isDigit = true ∧
      m1.isDigit = true ∧ m2.isDigit = true ∧ d1.isDigit = true ∧ d2.isDigit = true ∧
      y = 1000 * digitValue y1 + 100 * digitValue y2 + 10 * digitValue y3 + digitValue y4 ∧
      m = 10 * digitValue m1 + digitValue m2 ∧
      d = 10 * digitValue d1 + digitValue d2 ∧
      1 ≤ m ∧ m ≤ 12 ∧ 1 ≤ d ∧ (d : Int) ≤ calendarMonthLength y ((m : Int) - 1) := by
  unfold decodeDate at h
  split at h
  · rename_i y1 y2 y3 y4 p m1 m2 q d1 d2 hs
    simp only at h
    split at h
    · rename_i hc
      obtain ⟨hp, hq, h1, h2, h3, h4, h5, h6, h7, h8, h9, h10, h11, h12⟩ := hc
      simp only [Option.some.injEq, Prod.mk.injEq] at h
      obtain ⟨e1, e2, e3⟩ := h
      subst hp hq
      refine ⟨y1, y2, y3, y4, m1, m2, d1, d2, hs, h1, h2, h3, h4, h5, h6, h7, h8,
        e1.symm, e2.symm, e3.symm, ?_, ?_, ?_, ?_⟩
      · rw [← e2]; exact h9
      · rw [← e2]; exact h10
      · rw [← e3]; exact h11
      · rw [← e3, ← e2, ← e1]; exact h12
    · exact absurd h (by simp)
  · exact absurd h (by simp)

/-- On a valid date string `parseDate` returns the `Date` built from its three numbers. -/
theorem parseDate_valid (tza : Int) {s : String} {y m d : Nat}
    (h : decodeDate s = some (y, m, d)) :
    parseDate tza s = some (newDate tza (some (y : Int)) (some ((m : Int) - 1)) (some (d : Int))) := by
  obtain ⟨y1, y2, y3, y4, m1, m2, d1, d2, hs, h1, h2, h3, h4, h5, h6, h7, h8, ey, em, ed, -⟩ :=
    decodeDate_some h
  unfold parseDate
  rw [hs, splitOn_date _ _ _ _ _ _ _ _ (digit_ne_dash _ h1) (digit_ne_dash _ h2)
    (digit_ne_dash _ h3) (digit_ne_dash _ h4) (digit_ne_dash _ h5) (digit_ne_dash _ h6)
    (digit_ne_dash _ h7) (digit_ne_dash _ h8)]
  simp only [List.map, jsNumber_four _ _ _ _ h1 h2 h3 h4, jsNumber_two _ _ h5 h6,
    jsNumber_two _ _ h7 h8, ← ey, ← em, ← ed]
  simp

/-- The parts of a valid date string: the year is at most 9999, the month is from 1 to
12 and the day lies within the month. -/
theorem decodeDate_bounds {s : String} {y m d : Nat} (h : decodeDate s = some (y, m, d)) :
    y ≤ 9999 ∧ 1 ≤ m ∧ m ≤ 12 ∧ 1 ≤ d ∧ (d : Int) ≤ calendarMonthLength y ((m : Int) - 1) := by
  obtain ⟨y1, y2, y3, y4, m1, m2, d1, d2, -, h1, h2, h3, h4, -, -, -, -, ey, -, -,
    hm0, hm1, hd0, hd1⟩ := decodeDate_some h
  have v1 := digitValue_le _ h1
  have v2 := digitValue_le _ h2
  have v3 := digitValue_le _ h3
  have v4 := digitValue_le _ h4
  exact ⟨by omega, hm0, hm1, hd0, hd1⟩

theorem toDigits_four (a b c d : Nat) (ha1 : 1 ≤ a) (ha : a ≤ 9) (hb : b ≤ 9) (hc : c ≤ 9)
    (hd : d ≤ 9) :
    Nat.toDigits 10 (1000 * a + 100 * b + 10 * c + d) =
      [Nat.digitChar a, Nat.digitChar b, Nat.digitChar c, Nat.digitChar d] := by
  obtain ⟨k, hk⟩ : ∃ k, 1000 * a + 100 * b + 10 * c + d = k + 4 :=
    ⟨1000 * a + 100 * b + 10 * c + d - 4, by omega⟩
  have e1 : (1000 * a + 100 * b + 10 * c + d) % 10 = d := by omega
  have e2 : (1000 * a + 100 * b + 10 * c + d) / 10 = 100 * a + 10 * b + c := by omega
  have e3 : (100 * a + 10 * b + c) % 10 = c := by omega
  have e4 : (100 * a + 10 * b + c) / 10 = 10 * a + b := by omega
  have e5 : (10 * a + b) % 10 = b := by omega
  have e6 : (10 * a + b) / 10 = a := by omega
  have e7 : a % 10 = a := by omega
  have e8 : a / 10 = 0 := by omega
  have n1 : 100 * a + 10 * b + c ≠ 0 := by omega
  have n2 : 10 * a + b ≠ 0 := by omega
  have n3 : a ≠ 0 := by omega
  unfold Nat.toDigits
  rw [hk] at e1 e2 ⊢
  simp only [Nat.toDigitsCore, e1, e2, e3, e4, e5, e6, e7, e8, n1, n2, n3, if_true, if_false]

theorem padStart2_toDigits (a b : Nat) (ha : a ≤ 9) (hb : b ≤ 9) :
    padStart2 (Nat.toDigits 10 (10 * a + b)) = [Nat.digitChar a, Nat.digitChar b] := by
  interval_cases a <;> interval_cases b <;> decide

theorem numberToString_natCast (n : Nat) : numberToString (some (n : Int)) = Nat.toDigits 10 n := by
  simp [numberToString]

/-- Formatting after parsing gives back every valid date string whose year is 1000 or
later, in every time zone. -/
theorem roundTrip_from_year_1000 (tza : Int) (s : String) (y m d : Nat)
    (h : decodeDate s = some (y, m, d)) (hy : 1000 ≤ y) :
    (parseDate tza s).map (formatDate tza) = some s := by
  obtain ⟨y1, y2, y3, y4, m1, m2, d1, d2, hs, h1, h2, h3, h4, h5, h6, h7, h8, ey, em, ed,
    hm0, hm1, hd0, hd1⟩ := decodeDate_some h
  rw [parseDate_valid tza h]
  have hfy : fullYear (y : Int) = y := fullYear_of_ge _ (by omega)
  have v1 := digitValue_le _ h1
  have v2 := digitValue_le _ h2
  have v3 := digitValue_le _ h3
  have v4 := digitValue_le _ h4
  obtain ⟨gy, gm, gd⟩ := newDate_civil tza (constZone_regular tza) (y : Int) ((m : Int) - 1)
    (d : Int) (by rw [hfy]; omega) (by rw [hfy]; omega) (by omega) (by omega) (by omega)
    (by rw [hfy]; exact hd1)
  rw [hfy] at gy
  have v5 := digitValue_le _ h5
  have v6 := digitValue_le _ h6
  have v7 := digitValue_le _ h7
  have v8 := digitValue_le _ h8
  have em' : ((m : Int) - 1 + 1) = ((m : Nat) : Int) := by omega
  simp only [Option.map_some', Option.some.injEq, formatDate, gy, gm, gd, em',
    numberToString_natCast]
  rw [ey, em, ed, toDigits_four _ _ _ _ (by omega) v1 v2 v3 v4, padStart2_toDigits _ _ v5 v6,
    padStart2_toDigits _ _ v7 v8]
  simp only [digitChar_digitValue, h1, h2, h3, h4, h5, h6, h7, h8]
  rw [show s = String.mk s.data from rfl, hs]
  rfl

/-- C1: the round trip fails on valid date strings whose year is below 1000, in every
time zone.  `"0050-01-01"` is a valid date string, `parseDate` reads its year 50 as
1950 and `formatDate` gives `"1950-01-01"`; `"0999-12-31"` is a valid date string and
`formatDate` gives `"999-12-31"`, the year not padded to four digits. -/
theorem roundTrip_below_year_1000 (tza : Int) :
    decodeDate "0050-01-01" = some (50, 1, 1) ∧
    (parseDate tza "0050-01-01").map (formatDate tza) = some "1950-01-01" ∧
    decodeDate "0999-12-31" = some (999, 12, 31) ∧
    (parseDate tza "0999-12-31").map (formatDate tza) = some "999-12-31" := by
  have d1 : decodeDate "0050-01-01" = some (50, 1, 1) := by decide
  have d2 : decodeDate "0999-12-31" = some (999, 12, 31) := by decide
  refine ⟨d1, ?_, d2, ?_⟩
  · rw [parseDate_valid tza d1]
    obtain ⟨gy, gm, gd⟩ := newDate_civil tza (constZone_regular tza) ((50 : Nat) : Int) (((1 : Nat) : Int) - 1)
      ((1 : Nat) : Int) (by decide) (by decide) (by decide) (by decide) (by decide)
      (by decide)
    simp only [Option.map_some', Option.some.injEq, formatDate, gy, gm, gd]
    decide
  · rw [parseDate_valid tza d2]
    obtain ⟨gy, gm, gd⟩ := newDate_civil tza (constZone_regular tza) ((999 : Nat) : Int) (((12 : Nat) : Int) - 1)
      ((31 : Nat) : Int) (by decide) (by decide) (by decide) (by decide) (by decide)
      (by decide)
    simp only [Option.map_some', Option.some.injEq, formatDate, gy, gm, gd]
    decide

/-! ## Submitting -/

/-- The entry `handleSubmit` builds from the form. -/
theorem handleSubmit_history (s : State) :
    (handleSubmit s).history =
      { date := s.dateInput, anchors := some (filterTruthy s.anchors), explore := s.explore,
        journal := "", mood := some 0, completed := some s.completed } ::
        s.history.filter (fun e => e.date ≠ s.dateInput) := rfl

/-- C3: for every state, `handleSubmit` sets `done` and puts in front of the history the
entry made of the selected date, the non-empty anchors in their order, the
exploration text, an empty journal, mood 0 and the completion flags as they
are; behind it come the old entries of the other dates, all of them and in
their old order, and no old entry of the selected date. -/
theorem handleSubmit_spec (s : State) :
    (handleSubmit s).done = true ∧
    (∃ rest, (handleSubmit s).history =
        { date := s.dateInput, anchors := some (s.anchors.filter (fun a => a ≠ "")),
          explore := s.explore, journal := "", mood := some 0,
          completed := some s.completed } :: rest ∧
      rest = s.history.filter (fun e => e.date ≠ s.dateInput) ∧
      rest.Sublist s.history ∧
      (∀ e, e ∈ rest ↔ e ∈ s.history ∧ e.date ≠ s.dateInput)) ∧
    (∀ a, a ∈ s.anchors.filter (fun a => a ≠ "") ↔ a ∈ s.anchors ∧ a ≠ "") ∧
    (s.anchors.filter (fun a => a ≠ "")).Sublist s.anchors := by
  refine ⟨rfl, ⟨_, rfl, rfl, List.filter_sublist _, ?_⟩, ?_, List.filter_sublist _⟩
  · intro e
    simp [List.mem_filter]
  · intro a
    simp [List.mem_filter]

/-- The entry a submission of draft `d` writes. -/
theorem submitDraft_history (s : State) (d : Draft) :
    (submitDraft s d).history =
      { date := d.date, anchors := some (filterTruthy d.anchors), explore := d.explore,
        journal := "", mood := some 0, completed := some d.completed } ::
        s.history.filter (fun e => e.date ≠ d.date) := rfl

theorem filter_ne_idem (h : List Entry) (date : String) :
    (h.filter (fun e => e.date ≠ date)).filter (fun e => e.date ≠ date) =
      h.filter (fun e => e.date ≠ date) := by
  rw [List.filter_filter]
  congr 1
  funext e
  simp

theorem filter_eq_filter_ne (h : List Entry) (date : String) :
    (h.filter (fun e => e.date ≠ date)).filter (fun e => e.date = date) = [] := by
  rw [List.filter_filter]
  apply List.filter_eq_nil_iff.mpr
  intro e _
  simp

/-- C4: for every state and draft, submitting the same draft for the same date twice in
a row leaves the history of a single submission: it holds exactly one entry
for that date, and looking that date up gives the entry of the single
submission. -/
theorem handleSubmit_idempotent (s : State) (d : Draft) :
    (submitDraft (submitDraft s d) d).history = (submitDraft s d).history ∧
    ((submitDraft (submitDraft s d) d).history.filter (fun e => e.date = d.date)).length = 1 ∧
    findByDate (submitDraft (submitDraft s d) d).history d.date =
      findByDate (submitDraft s d).history d.date ∧
    findByDate (submitDraft s d).history d.date =
      some { date := d.date, anchors := some (filterTruthy d.anchors), explore := d.explore,
             journal := "", mood := some 0, completed := some d.completed } ∧
    handleSubmit (handleSubmit s) = handleSubmit s := by
  have h1 : (submitDraft (submitDraft s d) d).history = (submitDraft s d).history := by
    rw [submitDraft_history, submitDraft_history]
    simp only [List.filter_cons, ne_eq, not_true_eq_false, decide_False, Bool.false_eq_true,
      if_false]
    rw [filter_ne_idem]
  refine ⟨h1, ?_, by rw [h1], ?_, ?_⟩
  · rw [h1, submitDraft_history]
    simp only [List.filter_cons, decide_True, if_true]
    rw [filter_eq_filter_ne]
    rfl
  · rw [submitDraft_history]
    simp [findByDate]
  · have e : (handleSubmit (handleSubmit s)).history = (handleSubmit s).history := by
      rw [handleSubmit_history, handleSubmit_history]
      simp only [handleSubmit, List.filter_cons, ne_eq, not_true_eq_false, decide_False,
        Bool.false_eq_true, if_false]
      rw [filter_ne_idem]
    cases s
    simp only [handleSubmit] at e ⊢
    simp only [State.mk.injEq, true_and, and_true]
    exact e

theorem submitDraft_history' (s : State) (d : Draft) :
    (submitDraft s d).history =
      entryOfDraft d :: s.history.filter (fun e => e.date ≠ d.date) := rfl

theorem submitAll_append (s : State) (ds : List Draft) (d : Draft) :
    submitAll s (ds ++ [d]) = submitDraft (submitAll s ds) d := by
  simp [submitAll, List.foldl_append]

theorem findByDate_filter_ne (h : List Entry) (x date : String) (hne : date ≠ x) :
    findByDate (h.filter (fun e => e.date ≠ x)) date = findByDate h date := by
  induction h with
  | nil => rfl
  | cons e es ih =>
    unfold findByDate at ih ⊢
    by_cases he : e.date = x
    · have hd : e.date ≠ date := fun h => hne (h ▸ he)
      rw [List.filter_cons_of_neg (by simp [he]), List.find?_cons_of_neg _ (by simp [hd])]
      exact ih
    · rw [List.filter_cons_of_pos (by simp [he])]
      by_cases hd : e.date = date
      · rw [List.find?_cons_of_pos _ (by simp [hd]), List.find?_cons_of_pos _ (by simp [hd])]
      · rw [List.find?_cons_of_neg _ (by simp [hd]), List.find?_cons_of_neg _ (by simp [hd])]
        exact ih

theorem length_filter_date_le_one (h : List Entry) (hn : (h.map Entry.date).Nodup)
    (date : String) : (h.filter (fun e => e.date = date)).length ≤ 1 := by
  induction h with
  | nil => simp
  | cons e es ih =>
    simp only [List.map_cons, List.nodup_cons, List.mem_map, not_exists, not_and] at hn
    by_cases he : e.date = date
    · rw [List.filter_cons_of_pos (by simp [he])]
      have : es.filter (fun e => e.date = date) = [] := by
        apply List.filter_eq_nil_iff.mpr
        intro a ha
        have := hn.1 a ha
        simp only [decide_eq_true_eq]
        rw [← he]
        exact this
      rw [this]
      simp
    · rw [List.filter_cons_of_neg (by simp [he])]
      exact ih hn.2

/-- After any sequence of submissions into an empty history the dates in the history
are distinct and the lookup of a date gives the entry of the last submission for it. -/
theorem submitAll_invariant (s : State) (hs : s.history = []) (ds : List Draft) :
    ((submitAll s ds).history.map Entry.date).Nodup ∧
    ∀ date, findByDate (submitAll s ds).history date =
      ((ds.filter (fun d => d.date = date)).getLast?).map entryOfDraft := by
  induction ds using List.reverseRecOn with
  | nil =>
    simp [submitAll, hs, findByDate]
  | append_singleton ds d ih =>
    obtain ⟨ih1, ih2⟩ := ih
    rw [submitAll_append, submitDraft_history']
    refine ⟨?_, ?_⟩
    · simp only [List.map_cons, List.nodup_cons]
      refine ⟨?_, ?_⟩
      · simp [entryOfDraft, List.mem_map, List.mem_filter]
      · exact (List.Nodup.sublist ((List.filter_sublist _).map _) ih1)
    · intro date
      by_cases hd : d.date = date
      · subst hd
        simp [findByDate, entryOfDraft, List.filter_append]
      · have hd' : date ≠ d.date := fun h => hd h.symm
        have e1 : findByDate (entryOfDraft d :: List.filter (fun e => e.date ≠ d.date)
            (submitAll s ds).history) date =
            findByDate (List.filter (fun e => e.date ≠ d.date) (submitAll s ds).history) date := by
          simp [findByDate, List.find?_cons, entryOfDraft, hd]
        rw [e1, findByDate_filter_ne _ _ _ hd', ih2]
        simp [List.filter_append, hd]

/-- C2: starting from an empty history, after any sequence of submissions the history
holds at most one entry per date, and for every date that was submitted the
lookup by date returns the entry built by the most recent submission for
that date. -/
theorem submitAll_upsert (s : State) (hs : s.history = []) (ds : List Draft) :
    ((submitAll s ds).history.map Entry.date).Nodup ∧
    (∀ date, ((submitAll s ds).history.filter (fun e => e.date = date)).length ≤ 1) ∧
    (∀ d ∈ ds, ∃ last, (ds.filter (fun x => x.date = d.date)).getLast? = some last ∧
      last.date = d.date ∧
      findByDate (submitAll s ds).history d.date = some (entryOfDraft last)) := by
  obtain ⟨h1, h2⟩ := submitAll_invariant s hs ds
  refine ⟨h1, ?_, ?_⟩
  · intro date
    exact length_filter_date_le_one _ h1 date
  · intro d hd
    have hmem : d ∈ ds.filter (fun x => x.date = d.date) := by
      simp [List.mem_filter, hd]
    have hne : ds.filter (fun x => x.date = d.date) ≠ [] := List.ne_nil_of_mem hmem
    refine ⟨(ds.filter (fun x => x.date = d.date)).getLast hne, List.getLast?_eq_getLast _ hne, ?_, ?_⟩
    · have := List.getLast_mem hne
      simpa [List.mem_filter] using (List.mem_filter.mp this).2
    · rw [h2, List.getLast?_eq_getLast _ hne]
      rfl

/-! ## Check-in -/

/-- How an entry changes under a handler that rewrites `journal` and `mood` of the
entries of the selected date. -/
theorem map_checkIn_forall₂ (h : List Entry) (date journal : String) (mood : Option Int) :
    List.Forall₂ (fun e e' =>
        e'.date = e.date ∧ e'.anchors = e.anchors ∧ e'.completed = e.completed ∧
        e'.explore = e.explore ∧
        (e.date = date → e'.journal = journal ∧ e'.mood = mood) ∧
        (e.date ≠ date → e' = e))
      h (h.map (fun entry =>
        if entry.date = date then { entry with journal := journal, mood := mood } else entry)) := by
  induction h with
  | nil => exact List.Forall₂.nil
  | cons e es ih =>
    refine List.Forall₂.cons ?_ ih
    by_cases he : e.date = date
    · simp [he]
    · simp [he]

/-- C10: for every state that is not checked in, `handleCheckIn` sets `checkIn` and writes
the journal and mood of the form into every history entry of the selected
date, and a second `handleCheckIn` clears `checkIn` and sets journal `""` and mood 0
in those entries; in both steps the history keeps its length and order, every
entry keeps its date, anchors, completion flags and exploration text, and
the entries of other dates are unchanged.  If the history holds an entry for
the selected date, the lookup of that date gives that entry with the journal
and mood written (first step) and cleared (second step). -/
theorem handleCheckIn_spec (s : State) (hc : s.checkIn = false) :
    (handleCheckIn s).checkIn = true ∧
    (handleCheckIn s).dateInput = s.dateInput ∧
    List.Forall₂ (fun e e' =>
        e'.date = e.date ∧ e'.anchors = e.anchors ∧ e'.completed = e.completed ∧
        e'.explore = e.explore ∧
        (e.date = s.dateInput → e'.journal = s.journal ∧ e'.mood = some s.mood) ∧
        (e.date ≠ s.dateInput → e' = e))
      s.history (handleCheckIn s).history ∧
    (handleCheckIn (handleCheckIn s)).checkIn = false ∧
    List.Forall₂ (fun e e' =>
        e'.date = e.date ∧ e'.anchors = e.anchors ∧ e'.completed = e.completed ∧
        e'.explore = e.explore ∧
        (e.date = s.dateInput → e'.journal = "" ∧ e'.mood = some 0) ∧
        (e.date ≠ s.dateInput → e' = e))
      (handleCheckIn s).history (handleCheckIn (handleCheckIn s)).history ∧
    (∀ e, findByDate s.history s.dateInput = some e →
      findByDate (handleCheckIn s).history s.dateInput =
        some { e with journal := s.journal, mood := some s.mood } ∧
      findByDate (handleCheckIn (handleCheckIn s)).history s.dateInput =
        some { e with journal := "", mood := some 0 }) := by
  have e1 : handleCheckIn s = { s with
      history := s.history.map (fun entry =>
        if entry.date = s.dateInput then { entry with journal := s.journal, mood := some s.mood }
        else entry),
      checkIn := true } := by
    simp [handleCheckIn, hc]
  have e2 : handleCheckIn (handleCheckIn s) = { handleCheckIn s with
      history := (handleCheckIn s).history.map (fun entry =>
        if entry.date = s.dateInput then { entry with journal := "", mood := some 0 }
        else entry),
      checkIn := false, journal := "", mood := 3 } := by
    rw [e1]
    simp [handleCheckIn]
  refine ⟨by rw [e1], by rw [e1], ?_, by rw [e2], ?_, ?_⟩
  · rw [e1]
    exact map_checkIn_forall₂ _ _ _ _
  · rw [e2]
    exact map_checkIn_forall₂ _ _ _ _
  · intro e he
    rw [e2, e1]
    simp only [findByDate] at he ⊢
    have hd : e.date = s.dateInput := by
      have := List.find?_some he
      simpa using this
    constructor
    · rw [List.find?_map]
      have : ((fun e => e.date == s.dateInput) ∘ fun entry : Entry =>
          if entry.date = s.dateInput then { entry with journal := s.journal, mood := some s.mood }
          else entry) = (fun e => e.date == s.dateInput) := by
        funext x
        by_cases hx : x.date = s.dateInput <;> simp [hx]
      rw [this, he]
      simp [hd]
    · rw [List.map_map, List.find?_map]
      have : ((fun e => e.date == s.dateInput) ∘ ((fun entry : Entry =>
          if entry.date = s.dateInput then { entry with journal := "", mood := some 0 }
          else entry) ∘ fun entry : Entry =>
          if entry.date = s.dateInput then { entry with journal := s.journal, mood := some s.mood }
          else entry)) = (fun e => e.date == s.dateInput) := by
        funext x
        by_cases hx : x.date = s.dateInput <;> simp [hx]
      rw [this, he]
      simp [hd]

/-! ## Completion toggle -/

theorem boolAt_arraySet_self (arr : List Bool) (i : Nat) (v : Bool) :
    boolAt (arraySet arr i v) i = v := by
  unfold boolAt arraySet
  split
  · rename_i h
    simp [List.getD_eq_getElem?_getD, List.getElem?_set, h]
  · rename_i h
    have hlen : (arr ++ List.replicate (i - arr.length) false).length = i := by
      simp; omega
    rw [List.getD_eq_getElem?_getD, List.getElem?_append_right (by omega), hlen]
    simp

theorem boolAt_arraySet_ne (arr : List Bool) (i j : Nat) (v : Bool) (hij : j ≠ i) :
    boolAt (arraySet arr i v) j = boolAt arr j := by
  unfold boolAt arraySet
  split
  · rename_i h
    simp only [List.getD_eq_getElem?_getD]
    rw [List.getElem?_set_ne (Ne.symm hij)]
  · rename_i h
    simp only [List.getD_eq_getElem?_getD]
    by_cases hj : j < arr.length
    · rw [List.append_assoc, List.getElem?_append_left hj]
    · have e1 : arr[j]? = none := List.getElem?_eq_none (by omega)
      rw [e1]
      by_cases hj2 : j < i
      · rw [List.getElem?_append_left (by simp; omega),
          List.getElem?_append_right (by omega)]
        rw [List.getElem?_replicate]
        split <;> rfl
      · rw [List.getElem?_eq_none (by simp; omega)]

/-! ## Range aggregator: structure -/

/-- The aggregator filters the history with bounds that depend on the range settings
only, then maps and sorts. -/
theorem getFilteredChartData_shape (z : Zone) (now : Int) (s s' : State)
    (h1 : s'.chartRange = s.chartRange) (h2 : s'.customStart = s.customStart)
    (h3 : s'.customEnd = s.customEnd) :
    ∃ start stop,
      getFilteredChartData z now s = (filterEntries z start stop s.history).map
        (fun filtered => sortByDate z (filtered.map toChartPoint)) ∧
      getFilteredChartData z now s' = (filterEntries z start stop s'.history).map
        (fun filtered => sortByDate z (filtered.map toChartPoint)) := by
  unfold getFilteredChartData
  rw [h1, h2, h3]
  exact ⟨_, _, rfl, rfl⟩

/-- When no callback throws, the filtering step keeps the entries the callback accepts. -/
theorem filterEntries_eq_filter (z : Zone) (start stop : Option JSDate) (h r : List Entry)
    (hr : filterEntries z start stop h = some r) :
    r = h.filter (fun e => inRange z start stop e == some true) := by
  induction h generalizing r with
  | nil =>
    simp only [filterEntries, Option.some.injEq] at hr
    subst hr
    rfl
  | cons e es ih =>
    simp only [filterEntries] at hr
    cases hb : inRange z start stop e with
    | none => simp [hb] at hr
    | some b =>
      cases hes : filterEntries z start stop es with
      | none => simp [hb, hes] at hr
      | some r' =>
        simp only [hb, hes, Option.some.injEq] at hr
        have := ih r' hes
        subst hr
        cases b
        · simp [List.filter_cons, hb, this]
        · simp [List.filter_cons, hb, this]

/-- The filtering step throws only on an entry with an empty date. -/
theorem filterEntries_isSome (z : Zone) (start stop : Option JSDate) (h : List Entry)
    (hd : ∀ e ∈ h, e.date ≠ "") : ∃ r, filterEntries z start stop h = some r := by
  induction h with
  | nil => exact ⟨[], rfl⟩
  | cons e es ih =>
    obtain ⟨r, hr⟩ := ih (fun x hx => hd x (List.mem_cons_of_mem _ hx))
    have he : e.date ≠ "" := hd e (List.mem_cons_self _ _)
    have hp : ∃ b, inRange z start stop e = some b := by
      unfold inRange
      cases start with
      | none => exact ⟨true, rfl⟩
      | some st =>
        cases stop with
        | none => exact ⟨true, rfl⟩
        | some en =>
          have hne : e.date.data ≠ [] := by
            intro h0
            apply he
            rw [show e.date = String.mk e.date.data from rfl, h0]
          simp only [parseDate, hne, if_false]
          exact ⟨_, rfl⟩
    obtain ⟨b, hb⟩ := hp
    exact ⟨if b = true then e :: r else r, by simp only [filterEntries, hb, hr]⟩

/-- The callback reads the date of the entry only. -/
theorem inRange_congr (z : Zone) (start stop : Option JSDate) (e e' : Entry)
    (h : e'.date = e.date) : inRange z start stop e' = inRange z start stop e := by
  unfold inRange
  rw [h]

theorem filterEntries_map (z : Zone) (start stop : Option JSDate) (f : Entry → Entry)
    (hf : ∀ e, (f e).date = e.date) (h : List Entry) :
    filterEntries z start stop (h.map f) =
      (filterEntries z start stop h).map (List.map f) := by
  induction h with
  | nil => rfl
  | cons e es ih =>
    simp only [List.map_cons, filterEntries, ih, inRange_congr z start stop e (f e) (hf e)]
    cases inRange z start stop e with
    | none => rfl
    | some b =>
      cases filterEntries z start stop es with
      | none => rfl
      | some r => cases b <;> rfl

/-- Sorting reads the dates of the points only: the dates of the sorted points are the
same whatever the other fields are. -/
theorem sortByDate_dates (z : Zone) (l l' : List ChartPoint)
    (h : l'.map ChartPoint.date = l.map ChartPoint.date) :
    (sortByDate z l').map ChartPoint.date = (sortByDate z l).map ChartPoint.date := by
  have key : ∀ l : List ChartPoint, (sortByDate z l).map ChartPoint.date =
      (l.map ChartPoint.date).insertionSort (fun a b =>
        keepsOrder z ⟨a, 0, 0, none, "", "", none⟩ ⟨b, 0, 0, none, "", "", none⟩ = true) := by
    intro l
    unfold sortByDate
    apply List.map_insertionSort
    intro a _ b _
    rfl
  rw [key, key, h]

/-- The history after `toggleCompleted` when the plan is submitted. -/
theorem toggleCompleted_done (s : State) (i : Nat) (hdone : s.done = true) :
    toggleCompleted s i = { s with
      completed := arraySet s.completed i (!boolAt s.completed i),
      history := s.history.map (fun entry =>
        if entry.date = s.dateInput then
          { entry with completed := some (arraySet s.completed i (!boolAt s.completed i)) }
        else entry) } := by
  simp [toggleCompleted, hdone]

theorem map_completed_forall₂ (h : List Entry) (date : String) (c : List Bool) :
    List.Forall₂ (fun e e' =>
        e'.date = e.date ∧ e'.anchors = e.anchors ∧ e'.explore = e.explore ∧
        e'.journal = e.journal ∧ e'.mood = e.mood ∧
        (e.date = date → e'.completed = some c) ∧
        (e.date ≠ date → e' = e))
      h (h.map (fun entry =>
        if entry.date = date then { entry with completed := some c } else entry)) := by
  induction h with
  | nil => exact List.Forall₂.nil
  | cons e es ih =>
    refine List.Forall₂.cons ?_ ih
    by_cases he : e.date = date
    · simp [he]
    · simp [he]

/-- The expression `completed.filter(Boolean).length` counts the true flags. -/
theorem countTrue_eq_count (l : List Bool) : countTrue l = l.count true := by
  unfold countTrue
  induction l with
  | nil => rfl
  | cons b bs ih => cases b <;> simp [List.filter_cons, ih]

/-- C9: in every time zone, for every state whose plan is submitted and every index,
`toggleCompleted` flips the completion flag at that index and no other, and writes
the new flags into the history entries of the selected date; every entry keeps its
date, anchors, exploration text, journal and mood, and the entries of other dates
are unchanged.  The aggregator then returns points for the same dates in the same
order as before; every point it returns for the selected date has as its completed
count the number of `true` among the new flags; and when it returned a point for the
selected date before, it returns one after, with that count. -/
theorem toggleCompleted_spec (z : Zone) (now : Int) (s : State) (i : Nat)
    (hdone : s.done = true) :
    boolAt (toggleCompleted s i).completed i = !boolAt s.completed i ∧
    (∀ j, j ≠ i → boolAt (toggleCompleted s i).completed j = boolAt s.completed j) ∧
    List.Forall₂ (fun e e' =>
        e'.date = e.date ∧ e'.anchors = e.anchors ∧ e'.explore = e.explore ∧
        e'.journal = e.journal ∧ e'.mood = e.mood ∧
        (e.date = s.dateInput → e'.completed = some (toggleCompleted s i).completed) ∧
        (e.date ≠ s.dateInput → e' = e))
      s.history (toggleCompleted s i).history ∧
    (getFilteredChartData z now (toggleCompleted s i)).map (List.map ChartPoint.date) =
      (getFilteredChartData z now s).map (List.map ChartPoint.date) ∧
    (∀ out, getFilteredChartData z now (toggleCompleted s i) = some out →
      ∀ p ∈ out, p.date = s.dateInput →
        p.completed = (toggleCompleted s i).completed.count true) ∧
    (∀ before, getFilteredChartData z now s = some before →
      (∃ p ∈ before, p.date = s.dateInput) →
      ∃ out, getFilteredChartData z now (toggleCompleted s i) = some out ∧
        ∃ p ∈ out, p.date = s.dateInput ∧
          p.completed = (toggleCompleted s i).completed.count true) := by
  have e1 := toggleCompleted_done s i hdone
  generalize hc : arraySet s.completed i (!boolAt s.completed i) = c at e1
  have hcomp : (toggleCompleted s i).completed = c := by rw [e1]
  have hhist : (toggleCompleted s i).history = s.history.map (fun entry =>
      if entry.date = s.dateInput then { entry with completed := some c } else entry) := by
    rw [e1]
  have hfdate : ∀ e : Entry, (if e.date = s.dateInput then { e with completed := some c }
      else e).date = e.date := by
    intro e
    split <;> rfl
  obtain ⟨start, stop, q1, q2⟩ := getFilteredChartData_shape z now s (toggleCompleted s i)
    (by rw [e1]) (by rw [e1]) (by rw [e1])
  rw [hhist, filterEntries_map z start stop _ hfdate] at q2
  have hsame : (getFilteredChartData z now (toggleCompleted s i)).map (List.map ChartPoint.date) =
      (getFilteredChartData z now s).map (List.map ChartPoint.date) := by
    rw [q1, q2]
    cases filterEntries z start stop s.history with
    | none => rfl
    | some r =>
      simp only [Option.map_some', Option.some.injEq]
      apply sortByDate_dates
      simp only [List.map_map]
      apply List.map_congr_left
      intro e _
      simp only [Function.comp, toChartPoint]
      exact hfdate e
  have hcount : ∀ out, getFilteredChartData z now (toggleCompleted s i) = some out →
      ∀ p ∈ out, p.date = s.dateInput →
        p.completed = (toggleCompleted s i).completed.count true := by
    intro out hout p hp hpd
    rw [q2] at hout
    cases hr : filterEntries z start stop s.history with
    | none => simp [hr] at hout
    | some r =>
      simp only [hr, Option.map_some', Option.some.injEq] at hout
      subst hout
      unfold sortByDate at hp
      rw [List.mem_insertionSort, List.mem_map] at hp
      obtain ⟨e', he', rfl⟩ := hp
      rw [List.mem_map] at he'
      obtain ⟨e, _, rfl⟩ := he'
      have hd : e.date = s.dateInput := by
        rw [← hpd]
        simp only [toChartPoint]
        exact (hfdate e).symm
      rw [hcomp, ← countTrue_eq_count]
      simp [toChartPoint, hd]
  refine ⟨?_, ?_, ?_, hsame, hcount, ?_⟩
  · rw [hcomp, ← hc]
    exact boolAt_arraySet_self _ _ _
  · intro j hj
    rw [hcomp, ← hc]
    exact boolAt_arraySet_ne _ _ _ _ hj
  · rw [hcomp, hhist]
    exact map_completed_forall₂ _ _ _
  · intro before hbefore hex
    obtain ⟨p0, hp0, hp0d⟩ := hex
    rw [hbefore] at hsame
    cases hafter : getFilteredChartData z now (toggleCompleted s i) with
    | none => simp [hafter] at hsame
    | some out =>
      simp only [hafter, Option.map_some', Option.some.injEq] at hsame
      have hmem : p0.date ∈ out.map ChartPoint.date := by
        rw [hsame]
        exact List.mem_map_of_mem _ hp0
      obtain ⟨p, hp, hpd⟩ := List.mem_map.mp hmem
      exact ⟨out, rfl, p, hp, hpd.trans hp0d, hcount out hafter p hp (hpd.trans hp0d)⟩

/-! ## Range aggregator: the current week -/

theorem YearFromTime_ge (t y : Int) (h : DayFromYear y ≤ Day t) : y ≤ YearFromTime t := by
  unfold YearFromTime
  have hs := yearFromDay_spec (Day t)
  by_contra hlt
  have := DayFromYear_mono (show yearFromDay (Day t) + 1 ≤ y by omega)
  omega

theorem Day_ge_of_YearFromTime (t y : Int) (h : y ≤ YearFromTime t) : DayFromYear y ≤ Day t := by
  unfold YearFromTime at h
  have hs := yearFromDay_spec (Day t)
  have := DayFromYear_mono h
  omega

theorem Day_lt_of_YearFromTime (t y : Int) (h : YearFromTime t ≤ y) :
    Day t < DayFromYear (y + 1) := by
  unfold YearFromTime at h
  have hs := yearFromDay_spec (Day t)
  have := DayFromYear_mono (show yearFromDay (Day t) + 1 ≤ y + 1 by omega)
  omega

/-- A valid date string with a year from 100 on parses to the local midnight of its day. -/
theorem parseDate_civilDay (tza : Int) {s : String} {y m d : Nat}
    (h : decodeDate s = some (y, m, d)) (hy : 100 ≤ y) :
    parseDate tza s = some (JSDate.time (UTC tza (MakeDate (civilDay y m d) 0))) := by
  obtain ⟨hy9, hm0, hm1, hd0, hd1⟩ := decodeDate_bounds h
  have hfy : fullYear (y : Int) = y := fullYear_of_ge _ (by omega)
  rw [parseDate_valid tza h, newDate_valid tza (constZone_regular tza) (y : Int) ((m : Int) - 1) (d : Int)
    (by rw [hfy]; omega) (by rw [hfy]; omega) (by omega) (by omega) (by omega)
    (by rw [hfy]; exact hd1), hfy]
  rfl

/-- An entry dated on the local day of a time value parses to the local midnight of that
day, when the year is 100 or later. -/
theorem parseDate_datedOn (tza t : Int) (e : Entry) (h : datedOn tza e (JSDate.time t) = true)
    (hy : 100 ≤ YearFromTime (LocalTime tza t)) :
    parseDate tza e.date = some (JSDate.time (UTC tza (MakeDate (Day (LocalTime tza t)) 0))) := by
  unfold datedOn at h
  cases hdec : decodeDate e.date with
  | none => simp [hdec] at h
  | some v =>
    obtain ⟨y, m, d⟩ := v
    simp only [hdec, getFullYear, getMonth, getDate, Bool.and_eq_true, beq_iff_eq,
      Option.some.injEq] at h
    obtain ⟨⟨h1, h2⟩, h3⟩ := h
    rw [parseDate_civilDay tza hdec (by omega)]
    unfold civilDay
    rw [← h1, ← h2, ← h3, MakeDay_of_time]
    congr 4
    omega

/-- First day of the week of a local time value: its day number less its weekday. -/
theorem weekStart_le (l : Int) : Day l - WeekDay l ≤ Day l ∧ Day l < Day l - WeekDay l + 7 := by
  unfold WeekDay
  omega

/-- With the range "this week" the aggregator filters between the local midnight that
starts the week of today and the last millisecond of the day six days on. -/
theorem getFilteredChartData_this (tza now : Int) (s : State) (hthis : s.chartRange = "this")
    (hlo : -99999999 ≤ Day (LocalTime tza now) - WeekDay (LocalTime tza now))
    (hhi : Day (LocalTime tza now) - WeekDay (LocalTime tza now) ≤ 99999992) :
    getFilteredChartData tza now s =
      (filterEntries tza
        (some (JSDate.time (UTC tza (MakeDate
          (Day (LocalTime tza now) - WeekDay (LocalTime tza now)) 0))))
        (some (JSDate.time (UTC tza (MakeDate
          (Day (LocalTime tza now) - WeekDay (LocalTime tza now) + 6) (MakeTime 23 59 59 999)))))
        s.history).map (fun filtered => sortByDate tza (filtered.map toChartPoint)) := by
  have hz : MakeTime 0 0 0 0 = 0 := by decide
  have hd2 : ∀ d : Int, Day (MakeDate d (MakeTime 23 59 59 999)) = d :=
    fun d => Day_MakeDate d _ (by decide) (by decide)
  have hw := getWeekRange_eq tza (constZone_regular tza) now 0 (by omega) (by omega)
  simp only [Int.mul_zero, Int.add_zero] at hw
  generalize Day (LocalTime tza now) - WeekDay (LocalTime tza now) = S at hlo hhi hw ⊢
  have c2 := TimeClip_local tza (constZone_regular tza) S 0 hlo (by omega) (by decide) (by decide)
  have c4 := TimeClip_local tza (constZone_regular tza) (S + 6) (MakeTime 23 59 59 999) (by omega) (by omega)
    (by decide) (by decide)
  unfold getFilteredChartData
  simp only [hthis, if_true, hw, Option.map_some', setHours, LocalTime_UTC,
    Day_midnight, hd2, hz, c2, c4]

/-- The filter callback of the current week accepts an entry that parses to the local
midnight of day `D` exactly when `D` is one of the seven days of the week. -/
theorem inRange_week (tza S D : Int) (e : Entry) (hD0 : -99999999 ≤ D) (hD1 : D ≤ 99999998)
    (hp : parseDate tza e.date = some (JSDate.time (UTC tza (MakeDate D 0)))) :
    inRange tza (some (JSDate.time (UTC tza (MakeDate S 0))))
      (some (JSDate.time (UTC tza (MakeDate (S + 6) (MakeTime 23 59 59 999))))) e =
      some (decide (S ≤ D ∧ D ≤ S + 6)) := by
  have hd : Day (MakeDate D 0) = D := Day_midnight D
  have c := TimeClip_local tza (constZone_regular tza) D (MakeTime 12 0 0 0) hD0 hD1 (by decide) (by decide)
  simp only [inRange, hp, setHours, LocalTime_UTC, hd, c, dateGe, dateLe, Option.some.injEq]
  have e1 : (UTC tza (MakeDate S 0) ≤ UTC tza (MakeDate D (MakeTime 12 0 0 0))) ↔ S ≤ D := by
    simp only [UTC_const]
    unfold MakeDate MakeTime msPerDay
    omega
  have e2 : (UTC tza (MakeDate D (MakeTime 12 0 0 0)) ≤
      UTC tza (MakeDate (S + 6) (MakeTime 23 59 59 999))) ↔ D ≤ S + 6 := by
    simp only [UTC_const]
    unfold MakeDate MakeTime msPerDay
    omega
  simp only [e1, e2, Bool.decide_and]

/-- Which points the aggregator returns, in terms of the filter callback. -/
theorem getFilteredChartData_mem (z : Zone) (start stop : Option JSDate) (h out : List Entry)
    (hout : filterEntries z start stop h = some out) (e : Entry) (he : e ∈ h) :
    (inRange z start stop e = some true →
      toChartPoint e ∈ sortByDate z (out.map toChartPoint)) ∧
    (inRange z start stop e = some false →
      ∀ p ∈ sortByDate z (out.map toChartPoint), p.date ≠ e.date) := by
  have hf := filterEntries_eq_filter z start stop h out hout
  constructor
  · intro hin
    unfold sortByDate
    rw [List.mem_insertionSort, hf]
    exact List.mem_map_of_mem _ (List.mem_filter.mpr ⟨he, by simp [hin]⟩)
  · intro hin p hp hpd
    unfold sortByDate at hp
    rw [List.mem_insertionSort, hf, List.mem_map] at hp
    obtain ⟨e', he', rfl⟩ := hp
    have h1 := (List.mem_filter.mp he').2
    rw [inRange_congr z start stop e e' hpd, hin] at h1
    simp at h1

/-- The boundaries of the current week, away from the two defects: for every time zone
offset and every value of today in the years 101 to 275759, with the range
"this week" and a history without empty dates, the aggregator returns a result
that includes every entry dated on the start date of `getWeekRange(0)` and every
entry dated on its end date, and has no point for an entry dated one day before
the start date or one day after the end date. -/
theorem thisWeek_boundary (tza now : Int) (s : State) (hthis : s.chartRange = "this")
    (hdates : ∀ e ∈ s.history, e.date ≠ "")
    (hyear : 101 ≤ YearFromTime (LocalTime tza now))
    (hlast : YearFromTime (LocalTime tza now) ≤ 275759) :
    ∃ out, getFilteredChartData tza now s = some out ∧
      ∀ e ∈ s.history,
        (datedOn tza e (getWeekRange tza now 0).1 = true → toChartPoint e ∈ out) ∧
        (datedOn tza e (getWeekRange tza now 0).2 = true → toChartPoint e ∈ out) ∧
        (datedOn tza e (addDays (getWeekRange tza now 0).1 (-1)) = true →
          ∀ p ∈ out, p.date ≠ e.date) ∧
        (datedOn tza e (addDays (getWeekRange tza now 0).2 1) = true →
          ∀ p ∈ out, p.date ≠ e.date) := by
  have hw := weekStart_le (LocalTime tza now)
  have hbase := Day_ge_of_YearFromTime _ _ hyear
  have htop := Day_lt_of_YearFromTime _ _ hlast
  have hsucc := DayFromYear_succ 100
  have hdiy := DaysInYear_bounds 100
  have e100 : DayFromYear 100 = -683003 := by decide
  have etop : DayFromYear (275759 + 1) = 99999744 := by decide
  have e101 : (100 : Int) + 1 = 101 := by decide
  rw [e101] at hsucc
  rw [getFilteredChartData_this tza now s hthis (by omega) (by omega),
    getWeekRange_eq tza (constZone_regular tza) now 0 (by omega) (by omega)]
  simp only [Int.mul_zero, Int.add_zero, addDays]
  generalize hS : Day (LocalTime tza now) - WeekDay (LocalTime tza now) = S at hw
  have h100 : DayFromYear 100 ≤ S - 1 := by omega
  have hStop : S ≤ 99999744 := by omega
  obtain ⟨filtered, hfiltered⟩ := filterEntries_isSome tza
    (some (JSDate.time (UTC tza (MakeDate S 0))))
    (some (JSDate.time (UTC tza (MakeDate (S + 6) (MakeTime 23 59 59 999))))) s.history hdates
  refine ⟨_, by rw [hfiltered]; rfl, ?_⟩
  intro e he
  obtain ⟨hin, hout⟩ := getFilteredChartData_mem tza _ _ s.history filtered hfiltered e he
  have key : ∀ t D : Int, Day (LocalTime tza t) = D → S - 1 ≤ D → D ≤ S + 7 →
      datedOn tza e (JSDate.time t) = true →
      inRange tza (some (JSDate.time (UTC tza (MakeDate S 0))))
        (some (JSDate.time (UTC tza (MakeDate (S + 6) (MakeTime 23 59 59 999))))) e =
        some (decide (S ≤ D ∧ D ≤ S + 6)) := by
    intro t D hD hlo hhi hdated
    have hy : 100 ≤ YearFromTime (LocalTime tza t) := YearFromTime_ge _ _ (by omega)
    have hp := parseDate_datedOn tza t e hdated hy
    rw [hD] at hp
    exact inRange_week tza S D e (by omega) (by omega) hp
  have d1 : Day (LocalTime tza (UTC tza (MakeDate S 0))) = S := by
    rw [LocalTime_UTC, Day_midnight]
  have d2 : Day (LocalTime tza (UTC tza (MakeDate (S + 6) (MakeTime 23 59 59 999)))) = S + 6 := by
    rw [LocalTime_UTC]
    exact Day_MakeDate _ _ (by decide) (by decide)
  have d3 : Day (LocalTime tza (UTC tza (MakeDate S 0) + -1 * msPerDay)) = S - 1 := by
    simp only [LocalTime_const, UTC_const]
    unfold MakeDate Day msPerDay
    omega
  have d4 : Day (LocalTime tza (UTC tza (MakeDate (S + 6) (MakeTime 23 59 59 999)) + 1 * msPerDay))
      = S + 7 := by
    simp only [LocalTime_const, UTC_const]
    unfold MakeDate MakeTime Day msPerDay
    omega
  refine ⟨?_, ?_, ?_, ?_⟩
  · intro hd
    apply hin
    rw [key _ S d1 (by omega) (by omega) hd]
    simp
  · intro hd
    apply hin
    rw [key _ (S + 6) d2 (by omega) (by omega) hd]
    simp
  · intro hd
    apply hout
    rw [key _ (S - 1) d3 (by omega) (by omega) hd]
    simp
  · intro hd
    apply hout
    rw [key _ (S + 7) d4 (by omega) (by omega) hd]
    simp

/-! ## Range aggregator: ordering -/

/-- C5: the output is not in calendar order when a valid date has a year below 100.
After submitting plans for `"0099-01-01"` and `"1000-01-01"`, both valid dates, the
aggregator (no range filter, in the zone of UTC) returns the point of `"1000-01-01"`
before the point of `"0099-01-01"`, because `parseDate` reads the year 99 as 1999. -/
theorem chartData_year_below_100 :
    decodeDate "0099-01-01" = some (99, 1, 1) ∧
    decodeDate "1000-01-01" = some (1000, 1, 1) ∧
    ((submitAll (initialState "2024-03-10" 2 2024)
        [⟨"1000-01-01", ["Run"], "", [false, false, false]⟩,
         ⟨"0099-01-01", ["Read"], "", [false, false, false]⟩]).history.map Entry.date) =
      ["0099-01-01", "1000-01-01"] ∧
    (getFilteredChartData 0 0
      { submitAll (initialState "2024-03-10" 2 2024)
          [⟨"1000-01-01", ["Run"], "", [false, false, false]⟩,
           ⟨"0099-01-01", ["Read"], "", [false, false, false]⟩] with
        chartRange := "custom" }).map (List.map ChartPoint.date) =
      some ["1000-01-01", "0099-01-01"] ∧
    ¬ dateStringLe "1000-01-01" "0099-01-01" := by
  refine ⟨by decide, by decide, by decide, by decide, by decide⟩

/-- A day of the calendar lies within its year. -/
theorem civilDay_bounds (y m d : Nat) (hm0 : 1 ≤ m) (hm1 : m ≤ 12) (hd0 : 1 ≤ d)
    (hd1 : (d : Int) ≤ calendarMonthLength y ((m : Int) - 1)) :
    civilDay y m d = DayFromYear y + monthStart (isLeapYear y) ((m : Int) - 1) + d - 1 ∧
    DayFromYear y ≤ civilDay y m d ∧ civilDay y m d < DayFromYear ((y : Int) + 1) := by
  have h := MakeDay_in_range (y : Int) ((m : Int) - 1) (d : Int) (by omega) (by omega)
  have hnn := monthStart_nonneg (isLeapYear y) ((m : Int) - 1)
  have hms := monthStart_succ (isLeapYear y) ((m : Int) - 1) (by omega) (by omega)
  have hle := monthStart_succ_le (isLeapYear y) ((m : Int) - 1) (by omega) (by omega)
  have hsucc := DayFromYear_succ y
  unfold DaysInYear at hsucc
  unfold calendarMonthLength at hd1
  unfold civilDay
  refine ⟨h, ?_, ?_⟩ <;> omega

/-- Day numbers order valid dates as the calendar does. -/
theorem civilDay_le_iff (y m d y' m' d' : Nat) (hm0 : 1 ≤ m) (hm1 : m ≤ 12) (hd0 : 1 ≤ d)
    (hd1 : (d : Int) ≤ calendarMonthLength y ((m : Int) - 1))
    (hm0' : 1 ≤ m') (hm1' : m' ≤ 12) (hd0' : 1 ≤ d')
    (hd1' : (d' : Int) ≤ calendarMonthLength y' ((m' : Int) - 1)) :
    civilDay y m d ≤ civilDay y' m' d' ↔ calendarLe (y, m, d) (y', m', d') := by
  obtain ⟨e1, lo1, hi1⟩ := civilDay_bounds y m d hm0 hm1 hd0 hd1
  obtain ⟨e2, lo2, hi2⟩ := civilDay_bounds y' m' d' hm0' hm1' hd0' hd1'
  unfold calendarLe
  simp only
  rcases Nat.lt_trichotomy y y' with hy | hy | hy
  · have := DayFromYear_mono (show (y : Int) + 1 ≤ y' by omega)
    constructor
    · intro _; exact Or.inl hy
    · intro _; omega
  · subst hy
    unfold calendarMonthLength at hd1 hd1'
    rcases Nat.lt_trichotomy m m' with hm | hm | hm
    · have hmono := monthStart_mono (isLeapYear y) ((m : Int) - 1 + 1) ((m' : Int) - 1)
        (by omega) (by omega) (by omega)
      have hs := monthStart_succ (isLeapYear y) ((m : Int) - 1) (by omega) (by omega)
      constructor
      · intro _; exact Or.inr ⟨rfl, Or.inl hm⟩
      · intro _; omega
    · subst hm
      constructor
      · intro h; exact Or.inr ⟨rfl, Or.inr ⟨rfl, by omega⟩⟩
      · intro h
        rcases h with h | ⟨_, h | ⟨_, h⟩⟩ <;> omega
    · have hmono := monthStart_mono (isLeapYear y) ((m' : Int) - 1 + 1) ((m : Int) - 1)
        (by omega) (by omega) (by omega)
      have hs := monthStart_succ (isLeapYear y) ((m' : Int) - 1) (by omega) (by omega)
      constructor
      · intro _; omega
      · intro h
        rcases h with h | ⟨_, h | ⟨h, _⟩⟩ <;> omega
  · have := DayFromYear_mono (show (y' : Int) + 1 ≤ y by omega)
    constructor
    · intro _; omega
    · intro h
      rcases h with h | ⟨h, _⟩ <;> omega

/-- On valid dates with years from 100 on the comparator of the sort keeps two points
in place exactly when they are in calendar order. -/
theorem keepsOrder_iff (tza : Int) (p q : ChartPoint) (a b : Nat × Nat × Nat)
    (hp : decodeDate p.date = some a) (hq : decodeDate q.date = some b)
    (ha : 100 ≤ a.1) (hb : 100 ≤ b.1) :
    keepsOrder tza p q = true ↔ civilDay a.1 a.2.1 a.2.2 ≤ civilDay b.1 b.2.1 b.2.2 := by
  obtain ⟨y, m, d⟩ := a
  obtain ⟨y', m', d'⟩ := b
  simp only [keepsOrder, compareByDate, parseDate_civilDay tza hp ha,
    parseDate_civilDay tza hq hb, dateToNumber, decide_eq_true_eq, UTC_const]
  unfold MakeDate msPerDay
  omega

/-- The day number the sort orders a point by: that of its date when valid. -/
theorem sortByDate_sorted (tza : Int) (l : List ChartPoint)
    (hl : ∀ p ∈ l, ∃ a, decodeDate p.date = some a ∧ 100 ≤ a.1) :
    (sortByDate tza l).Pairwise (fun p q => dateStringLe p.date q.date) := by
  let key : ChartPoint → Int := fun p =>
    match decodeDate p.date with
    | some a => civilDay a.1 a.2.1 a.2.2
    | none => 0
  have hmap : (sortByDate tza l).map key = (l.map key).insertionSort (· ≤ ·) := by
    unfold sortByDate
    apply List.map_insertionSort
    intro p hp q hq
    obtain ⟨a, ha, ha2⟩ := hl p hp
    obtain ⟨b, hb, hb2⟩ := hl q hq
    rw [keepsOrder_iff tza p q a b ha hb ha2 hb2]
    simp only [key, ha, hb]
  have hsorted : ((sortByDate tza l).map key).Pairwise (· ≤ ·) := by
    rw [hmap]
    exact List.sorted_insertionSort (· ≤ ·) _
  rw [List.pairwise_map] at hsorted
  have hmem : ∀ p ∈ sortByDate tza l, p ∈ l := by
    intro p hp
    unfold sortByDate at hp
    exact (List.mem_insertionSort _).mp hp
  refine List.Pairwise.imp_of_mem ?_ hsorted
  intro p q hp hq hle
  obtain ⟨a, ha, _⟩ := hl p (hmem p hp)
  obtain ⟨b, hb, _⟩ := hl q (hmem q hq)
  obtain ⟨_, _, _, _, _, _, _, _, _, _, _, _, _, _, _, _, _, ey, em, ed, m0, m1, d0, d1⟩ :=
    decodeDate_some (show decodeDate p.date = some (a.1, a.2.1, a.2.2) from ha)
  obtain ⟨_, _, _, _, _, _, _, _, _, _, _, _, _, _, _, _, _, ey', em', ed', m0', m1', d0', d1'⟩ :=
    decodeDate_some (show decodeDate q.date = some (b.1, b.2.1, b.2.2) from hb)
  simp only [key, ha, hb] at hle
  unfold dateStringLe
  simp only [ha, hb]
  exact (civilDay_le_iff _ _ _ _ _ _ m0 m1 d0 d1 m0' m1' d0' d1').mp hle

/-- For a history of valid dates with years from 100 on, and any range setting, the
aggregator returns a result in calendar order that is a rearrangement of the
points of the entries the range filter accepts. -/
theorem getFilteredChartData_sorted (tza now : Int) (s : State)
    (hvalid : ∀ e ∈ s.history, ∃ a, decodeDate e.date = some a ∧ 100 ≤ a.1) :
    ∃ out start stop, getFilteredChartData tza now s = some out ∧
      out.Pairwise (fun p q => dateStringLe p.date q.date) ∧
      out.Perm ((s.history.filter
        (fun e => inRange tza start stop e == some true)).map toChartPoint) := by
  obtain ⟨start, stop, q1, -⟩ := getFilteredChartData_shape tza now s s rfl rfl rfl
  have hne : ∀ e ∈ s.history, e.date ≠ "" := by
    intro e he h0
    obtain ⟨a, ha, _⟩ := hvalid e he
    rw [h0, show decodeDate "" = none from rfl] at ha
    cases ha
  obtain ⟨r, hr⟩ := filterEntries_isSome tza start stop s.history hne
  have hf := filterEntries_eq_filter tza start stop s.history r hr
  refine ⟨sortByDate tza (r.map toChartPoint), start, stop, by rw [q1, hr]; rfl, ?_, ?_⟩
  · apply sortByDate_sorted
    intro p hp
    rw [List.mem_map] at hp
    obtain ⟨e, he, rfl⟩ := hp
    rw [hf] at he
    exact hvalid e (List.mem_filter.mp he).1
  · rw [← hf]
    unfold sortByDate
    exact List.perm_insertionSort _ _

/-! ## The claims on sample inputs -/

/-- Scenario A: the submitted entry is in the history and the aggregator over the custom
range of that single day returns its point, with no completed task. -/
theorem scenarioA_result :
    scenarioA.history =
      [{ date := "2024-03-10", anchors := some ["Run", "Read"], explore := "", journal := "",
         mood := some 0, completed := some [false, false, false] }] ∧
    getFilteredChartData 0 sampleNow
      { scenarioA with chartRange := "custom", customStart := "2024-03-10",
                       customEnd := "2024-03-10" } =
      some [{ date := "2024-03-10", completed := 0, mood := 0, anchors := some ["Run", "Read"],
              explore := "", journal := "", completedList := some [false, false, false] }] := by
  constructor <;> decide

/-- The week of `sampleNow` runs from Sunday 10 March to Saturday 16 March 2024, and the
aggregator keeps the entries of these two days of `sampleWeek` and drops those of
9 and 17 March. -/
theorem sampleWeek_result :
    formatDate 0 (getWeekRange 0 sampleNow 0).1 = "2024-03-10" ∧
    formatDate 0 (getWeekRange 0 sampleNow 0).2 = "2024-03-16" ∧
    (getFilteredChartData 0 sampleNow sampleWeek).map (List.map ChartPoint.date) =
      some ["2024-03-10", "2024-03-16"] := by
  refine ⟨by decide, by decide, by decide⟩

/-- The upsert claim on three submissions into the empty history. -/
theorem submitAll_upsert_witness :
    (initialState "2024-03-10" 2 2024).history = [] ∧
    ((submitAll (initialState "2024-03-10" 2 2024) sampleDrafts).history.map Entry.date).Nodup ∧
    (∀ date, ((submitAll (initialState "2024-03-10" 2 2024) sampleDrafts).history.filter
      (fun e => e.date = date)).length ≤ 1) ∧
    (∀ d ∈ sampleDrafts, ∃ last,
      (sampleDrafts.filter (fun x => x.date = d.date)).getLast? = some last ∧
      last.date = d.date ∧
      findByDate (submitAll (initialState "2024-03-10" 2 2024) sampleDrafts).history d.date =
        some (entryOfDraft last)) :=
  ⟨rfl, submitAll_upsert (initialState "2024-03-10" 2 2024) rfl sampleDrafts⟩

/-- The boundaries of the week of `sampleNow` in the history `sampleWeek`. -/
theorem thisWeek_boundary_sample :
    sampleWeek.chartRange = "this" ∧
    (∀ e ∈ sampleWeek.history, e.date ≠ "") ∧
    101 ≤ YearFromTime (LocalTime sampleOffset sampleNow) ∧
    YearFromTime (LocalTime sampleOffset sampleNow) ≤ 275759 ∧
    ∃ out, getFilteredChartData sampleOffset sampleNow sampleWeek = some out ∧
      ∀ e ∈ sampleWeek.history,
        (datedOn sampleOffset e (getWeekRange sampleOffset sampleNow 0).1 = true →
          toChartPoint e ∈ out) ∧
        (datedOn sampleOffset e (getWeekRange sampleOffset sampleNow 0).2 = true →
          toChartPoint e ∈ out) ∧
        (datedOn sampleOffset e (addDays (getWeekRange sampleOffset sampleNow 0).1 (-1)) = true →
          ∀ p ∈ out, p.date ≠ e.date) ∧
        (datedOn sampleOffset e (addDays (getWeekRange sampleOffset sampleNow 0).2 1) = true →
          ∀ p ∈ out, p.date ≠ e.date) :=
  ⟨rfl, by decide, by decide, by decide,
    thisWeek_boundary sampleOffset sampleNow sampleWeek rfl (by decide) (by decide) (by decide)⟩

/-- C6: the aggregator throws when the history holds an entry with an empty date.  In
`sampleCleared` a plan was submitted for Sunday 10 March 2024 and another one with
the date field cleared; with today at `sampleNow` the week starts on 10 March, the
range is "this week" and the first plan is dated on the start date of
`getWeekRange(0)`, yet `getFilteredChartData` returns no result: the filter callback
calls `setHours` on the `null` that `parseDate` returns for the empty date.  Without
the entry of the empty date the aggregator returns the point of 10 March. -/
theorem thisWeek_empty_date_throws :
    sampleCleared.history.map Entry.date = ["", "2024-03-10"] ∧
    sampleCleared.chartRange = "this" ∧
    formatDate 0 (getWeekRange 0 sampleNow 0).1 = "2024-03-10" ∧
    sampleCleared.history.map (fun e => datedOn 0 e (getWeekRange 0 sampleNow 0).1) =
      [false, true] ∧
    parseDate 0 "" = none ∧
    getFilteredChartData 0 sampleNow sampleCleared = none ∧
    (getFilteredChartData 0 sampleNow
      { sampleCleared with history := sampleCleared.history.filter (fun e => e.date ≠ "") }).map
      (List.map ChartPoint.date) = some ["2024-03-10"] := by
  refine ⟨by decide, by decide, by decide, by decide, by decide, by decide, by decide⟩

/-- The boundaries of the week in the zone `saoPaulo2018`, where the Sunday that starts
the week of `sampleNowSaoPaulo` begins at 01:00: the aggregator keeps the entries of
Sunday 4 and Saturday 10 November 2018 and drops those of the 3rd and the 11th. -/
theorem thisWeek_boundary_saoPaulo :
    (getFilteredChartData saoPaulo2018 sampleNowSaoPaulo sampleWeekSaoPaulo).map
      (List.map ChartPoint.date) = some ["2018-11-04", "2018-11-10"] := by
  decide

/-- The four entries of `sampleWeek` are dated on the day before the week, its first
day, its last day and the day after. -/
theorem sampleWeek_dated :
    sampleWeek.history.map (fun e =>
      (e.date, datedOn 0 e (addDays (getWeekRange 0 sampleNow 0).1 (-1)),
        datedOn 0 e (getWeekRange 0 sampleNow 0).1, datedOn 0 e (getWeekRange 0 sampleNow 0).2,
        datedOn 0 e (addDays (getWeekRange 0 sampleNow 0).2 1))) =
      [("2024-03-17", false, false, false, true), ("2024-03-16", false, false, true, false),
       ("2024-03-10", false, true, false, false), ("2024-03-09", true, false, false, false)] := by
  decide

/-- The calendar claim on November 2018 in the zone `saoPaulo2018`, where the first
instant of Sunday 4 November is 01:00: the month began on a Thursday and had 30
days, and the cell of day 4 carries the plan of that day. -/
theorem generateCalendarDays_spec_witness :
    saoPaulo2018.regular ∧
    ((0 : Int) ≤ sampleNovember.calendarMonth ∧ sampleNovember.calendarMonth ≤ 11) ∧
    (-271820 ≤ sampleNovember.calendarYear ∧ sampleNovember.calendarYear ≤ 275759) ∧
    (sampleNovember.calendarYear < 0 ∨ 99 < sampleNovember.calendarYear) ∧
    calendarFirstWeekday 2018 10 = 4 ∧ calendarMonthLength 2018 10 = 30 ∧
    (generateCalendarDays saoPaulo2018 sampleNovember)[7]? =
      some (CalendarCell.day 4 "2018-11-04" true false 0 ["Run"] 1 1) ∧
    ((generateCalendarDays saoPaulo2018 sampleNovember).length =
      calendarFirstWeekday sampleNovember.calendarYear sampleNovember.calendarMonth +
        (calendarMonthLength sampleNovember.calendarYear sampleNovember.calendarMonth).toNat ∧
    (generateCalendarDays saoPaulo2018 sampleNovember).take (calendarFirstWeekday
        sampleNovember.calendarYear sampleNovember.calendarMonth) =
      List.replicate (calendarFirstWeekday sampleNovember.calendarYear
          sampleNovember.calendarMonth) CalendarCell.blank ∧
    (∀ k, k < (calendarMonthLength sampleNovember.calendarYear sampleNovember.calendarMonth).toNat →
      ∃ date hasEntry isCheckedIn mood anchors tasksCompleted numberOfTasks,
        (generateCalendarDays saoPaulo2018 sampleNovember)[calendarFirstWeekday
            sampleNovember.calendarYear sampleNovember.calendarMonth + k]? =
          some (CalendarCell.day (k + 1) date hasEntry isCheckedIn mood anchors tasksCompleted
            numberOfTasks)) ∧
    firstWeekdayOfMonth saoPaulo2018 sampleNovember.calendarYear sampleNovember.calendarMonth =
      calendarFirstWeekday sampleNovember.calendarYear sampleNovember.calendarMonth ∧
    calendarFirstWeekday sampleNovember.calendarYear sampleNovember.calendarMonth ≤ 6 ∧
    (daysInMonth saoPaulo2018 sampleNovember.calendarYear sampleNovember.calendarMonth : Int) =
      calendarMonthLength sampleNovember.calendarYear sampleNovember.calendarMonth ∧
    (sampleNovember.calendarMonth = 11 → daysInMonth saoPaulo2018 sampleNovember.calendarYear
        sampleNovember.calendarMonth = 31) ∧
    (sampleNovember.calendarMonth = 1 → daysInMonth saoPaulo2018 sampleNovember.calendarYear
        sampleNovember.calendarMonth =
      if isLeapYear sampleNovember.calendarYear then 29 else 28)) :=
  ⟨saoPaulo2018_regular, by decide, by decide, by decide, by decide, by decide, by decide,
    generateCalendarDays_spec saoPaulo2018 saoPaulo2018_regular sampleNovember (by decide)
      (by decide) (by decide) (by decide) (by decide)⟩

/-- C7 fails for a year from 0 to 99, for a year beyond the range of `Date` and in a zone
that skips a day.  January of the year 50 began on a Saturday, so the calendar has 6
leading blanks, but the grid starts with the cell of day 1, dated in 1950; February
of the year 0, a leap year, began on a Tuesday and had 29 days, 31 cells, but the
grid has the 4 blanks and 28 days of February 1900; January 275761 has 4 + 31 cells
but the grid is empty, the dates of that month being `Invalid Date`; December 1994
began on a Thursday and had 31 days, but in the zone `kiritimati1994`, which skipped
the 31st, the grid has 4 blanks and the single cell of day 1. -/
theorem generateCalendarDays_off_calendar :
    calendarFirstWeekday 50 0 = 6 ∧
    (generateCalendarDays 0 (initialState "2024-03-10" 0 50)).head? =
      some (CalendarCell.day 1 "1950-01-01" false false 0 [] 0 0) ∧
    calendarFirstWeekday 0 1 = 2 ∧ calendarMonthLength 0 1 = 29 ∧
    firstWeekdayOfMonth 0 0 1 = 4 ∧ daysInMonth 0 0 1 = 28 ∧
    (generateCalendarDays 0 (initialState "2024-03-10" 1 0)).length = 32 ∧
    calendarFirstWeekday 275761 0 = 4 ∧ calendarMonthLength 275761 0 = 31 ∧
    generateCalendarDays 0 (initialState "2024-03-10" 0 275761) = [] ∧
    calendarFirstWeekday 1994 11 = 4 ∧ calendarMonthLength 1994 11 = 31 ∧
    generateCalendarDays kiritimati1994 (initialState "1995-01-03" 11 1994) =
      [CalendarCell.blank, CalendarCell.blank, CalendarCell.blank, CalendarCell.blank,
       CalendarCell.day 1 "1994-12-01" false false 0 [] 0 0] := by
  refine ⟨by decide, by decide, by decide, by decide, by decide, by decide, by decide,
    by decide, by decide, by decide, by decide, by decide, by decide⟩

/-- The grid of March 2024 starts on a Friday and has 31 days; February 2024 has 29
days, February 1900 has 28 and December 1999 has 31.  The reference weekday of the
first day of a month on known dates: Thursday 1 January 1970, Saturday 1 January
2000, Friday 1 March 2024, Monday 1 January 1900, Sunday 1 January 1950. -/
theorem calendar_samples :
    firstWeekdayOfMonth 0 2024 2 = 5 ∧ daysInMonth 0 2024 2 = 31 ∧
    (generateCalendarDays 0 scenarioA).length = 36 ∧
    daysInMonth 0 2024 1 = 29 ∧ daysInMonth 0 1900 1 = 28 ∧ daysInMonth 0 1999 11 = 31 ∧
    calendarFirstWeekday 1970 0 = 4 ∧ calendarFirstWeekday 2000 0 = 6 ∧
    calendarFirstWeekday 2024 2 = 5 ∧ calendarFirstWeekday 1900 0 = 1 ∧
    calendarFirstWeekday 1950 0 = 0 := by
  refine ⟨by decide, by decide, by decide, by decide, by decide, by decide, by decide,
    by decide, by decide, by decide, by decide⟩

/-- The week-range claim in the zone `saoPaulo2018` with today Wednesday 7 November 2018:
the week runs from Sunday 4 November to Saturday 10 November. -/
theorem getWeekRange_spec_witness :
    saoPaulo2018.regular ∧
    (-99999999 ≤ Day (LocalTime saoPaulo2018 sampleNowSaoPaulo) -
      WeekDay (LocalTime saoPaulo2018 sampleNowSaoPaulo) + 7 * 0) ∧
    (Day (LocalTime saoPaulo2018 sampleNowSaoPaulo) -
      WeekDay (LocalTime saoPaulo2018 sampleNowSaoPaulo) + 7 * 0 ≤ 99999992) ∧
    formatDate saoPaulo2018 (getWeekRange saoPaulo2018 sampleNowSaoPaulo 0).1 = "2018-11-04" ∧
    formatDate saoPaulo2018 (getWeekRange saoPaulo2018 sampleNowSaoPaulo 0).2 = "2018-11-10" ∧
    ((0 ≤ WeekDay (LocalTime saoPaulo2018 sampleNowSaoPaulo) ∧ WeekDay (LocalTime saoPaulo2018
        sampleNowSaoPaulo) ≤ 6) ∧
    WeekDay (MakeDate (Day (LocalTime saoPaulo2018 sampleNowSaoPaulo) - WeekDay (LocalTime
        saoPaulo2018 sampleNowSaoPaulo)) 0) = 0 ∧
    localDay saoPaulo2018 (getWeekRange saoPaulo2018 sampleNowSaoPaulo 0).1 =
      some (Day (LocalTime saoPaulo2018 sampleNowSaoPaulo) - WeekDay (LocalTime saoPaulo2018
          sampleNowSaoPaulo) + 7 * 0) ∧
    getDay saoPaulo2018 (getWeekRange saoPaulo2018 sampleNowSaoPaulo 0).1 = some 0 ∧
    localDay saoPaulo2018 (getWeekRange saoPaulo2018 sampleNowSaoPaulo 0).2 =
      some (Day (LocalTime saoPaulo2018 sampleNowSaoPaulo) - WeekDay (LocalTime saoPaulo2018
          sampleNowSaoPaulo) + 7 * 0 + 6) ∧
    getDay saoPaulo2018 (getWeekRange saoPaulo2018 sampleNowSaoPaulo 0).2 = some 6 ∧
    (∃ y m d, getFullYear saoPaulo2018 (getWeekRange saoPaulo2018 sampleNowSaoPaulo 0).1 = some y ∧
      getMonth saoPaulo2018 (getWeekRange saoPaulo2018 sampleNowSaoPaulo 0).1 = some m ∧
      getDate saoPaulo2018 (getWeekRange saoPaulo2018 sampleNowSaoPaulo 0).1 = some d ∧
          calendarWeekday y m d = 0) ∧
    (∃ y m d, getFullYear saoPaulo2018 (getWeekRange saoPaulo2018 sampleNowSaoPaulo 0).2 = some y ∧
      getMonth saoPaulo2018 (getWeekRange saoPaulo2018 sampleNowSaoPaulo 0).2 = some m ∧
      getDate saoPaulo2018 (getWeekRange saoPaulo2018 sampleNowSaoPaulo 0).2 = some d ∧
          calendarWeekday y m d = 6) ∧
    (getWeekRange saoPaulo2018 sampleNowSaoPaulo 0).1 = JSDate.time (UTC saoPaulo2018 (MakeDate
      (Day (LocalTime saoPaulo2018 sampleNowSaoPaulo) - WeekDay (LocalTime saoPaulo2018
          sampleNowSaoPaulo) + 7 * 0) 0)) ∧
    (getWeekRange saoPaulo2018 sampleNowSaoPaulo 0).2 = JSDate.time (UTC saoPaulo2018 (MakeDate
      (Day (LocalTime saoPaulo2018 sampleNowSaoPaulo) - WeekDay (LocalTime saoPaulo2018
          sampleNowSaoPaulo) + 7 * 0 + 6) (msPerDay - 1))) ∧
    (LocalTime saoPaulo2018 (UTC saoPaulo2018 (MakeDate
        (Day (LocalTime saoPaulo2018 sampleNowSaoPaulo) - WeekDay (LocalTime saoPaulo2018
            sampleNowSaoPaulo) + 7 * 0) 0)) =
      MakeDate (Day (LocalTime saoPaulo2018 sampleNowSaoPaulo) - WeekDay (LocalTime saoPaulo2018
          sampleNowSaoPaulo) + 7 * 0) 0 →
      localTimeOfDay saoPaulo2018 (getWeekRange saoPaulo2018 sampleNowSaoPaulo 0).1 = some 0) ∧
    (LocalTime saoPaulo2018 (UTC saoPaulo2018 (MakeDate
        (Day (LocalTime saoPaulo2018 sampleNowSaoPaulo) - WeekDay (LocalTime saoPaulo2018
            sampleNowSaoPaulo) + 7 * 0 + 6) (msPerDay - 1))) =
      MakeDate (Day (LocalTime saoPaulo2018 sampleNowSaoPaulo) - WeekDay (LocalTime saoPaulo2018
          sampleNowSaoPaulo) + 7 * 0 + 6)
        (msPerDay - 1) →
      localTimeOfDay saoPaulo2018 (getWeekRange saoPaulo2018 sampleNowSaoPaulo 0).2 = some
          (msPerDay - 1)) ∧
    (WeekDay (LocalTime saoPaulo2018 sampleNowSaoPaulo) = 3 → (0 : Int) = 0 →
      localDay saoPaulo2018 (getWeekRange saoPaulo2018 sampleNowSaoPaulo 0).1 = some (Day
          (LocalTime saoPaulo2018 sampleNowSaoPaulo) - 3) ∧
      localDay saoPaulo2018 (getWeekRange saoPaulo2018 sampleNowSaoPaulo 0).2 = some (Day
          (LocalTime saoPaulo2018 sampleNowSaoPaulo) + 3))) :=
  ⟨saoPaulo2018_regular, by decide, by decide, by decide, by decide,
    getWeekRange_spec saoPaulo2018 saoPaulo2018_regular sampleNowSaoPaulo 0 (by decide)
      (by decide)⟩

/-- The week before that of `sampleNow` in the zone of `sampleOffset`, a zone of constant
offset: it runs from Sunday 3 March 2024, 00:00:00.000, to Saturday 9 March,
23:59:59.999. -/
theorem getWeekRange_sample :
    formatDate sampleOffset (getWeekRange sampleOffset sampleNow (-1)).1 = "2024-03-03" ∧
    localTimeOfDay sampleOffset (getWeekRange sampleOffset sampleNow (-1)).1 = some 0 ∧
    formatDate sampleOffset (getWeekRange sampleOffset sampleNow (-1)).2 = "2024-03-09" ∧
    localTimeOfDay sampleOffset (getWeekRange sampleOffset sampleNow (-1)).2 =
      some (msPerDay - 1) := by
  refine ⟨by decide, by decide, by decide, by decide⟩

/-- C8 fails where daylight saving starts at local midnight, for an offset that leaves
the range of `Date` and in a zone that skips a day.  In the zone `saoPaulo2018` with
today Wednesday 7 November 2018 the start date is Sunday 4 November, but at
01:00:00.000, the first instant of that day: its time value is 1541300400000, an
hour after the value 1541296800000 that 00:00:00.000 at the offset of -2 h would
have.  In the zone of UTC with today at `sampleNow`, `getWeekRange(20000000)` returns
two `Invalid Date` objects.  In the zone `kiritimati1994` with today Tuesday 3 January
1995, `getWeekRange(-1)` starts on Sunday 25 December 1994 and ends on Sunday 1
January 1995, seven days later, the Saturday between them having been skipped. -/
theorem getWeekRange_not_midnight :
    getDay saoPaulo2018 (JSDate.time sampleNowSaoPaulo) = some 3 ∧
    getWeekRange saoPaulo2018 sampleNowSaoPaulo 0 =
      (JSDate.time 1541300400000, JSDate.time 1541901599999) ∧
    formatDate saoPaulo2018 (getWeekRange saoPaulo2018 sampleNowSaoPaulo 0).1 = "2018-11-04" ∧
    localTimeOfDay saoPaulo2018 (getWeekRange saoPaulo2018 sampleNowSaoPaulo 0).1 =
      some 3600000 ∧
    getWeekRange ((-7200000 : Int)) sampleNowSaoPaulo 0 =
      (JSDate.time 1541296800000, JSDate.time 1541901599999) ∧
    getWeekRange 0 sampleNow 20000000 = (JSDate.invalid, JSDate.invalid) ∧
    formatDate kiritimati1994 (JSDate.time sampleNowKiritimati) = "1995-01-03" ∧
    formatDate kiritimati1994 (getWeekRange kiritimati1994 sampleNowKiritimati (-1)).1 =
      "1994-12-25" ∧
    formatDate kiritimati1994 (getWeekRange kiritimati1994 sampleNowKiritimati (-1)).2 =
      "1995-01-01" ∧
    getDay kiritimati1994 (getWeekRange kiritimati1994 sampleNowKiritimati (-1)).2 = some 0 := by
  refine ⟨by decide, by decide, by decide, by decide, by decide, by decide, by decide,
    by decide, by decide, by decide⟩

/-- The completion-toggle claim on scenario A, task 0, with today at `sampleNow`: the
week shown holds the date of the entry, and the count of its point goes from 0 to 1. -/
theorem toggleCompleted_spec_witness :
    scenarioA.done = true ∧
    (getFilteredChartData 0 sampleNow scenarioA).map (List.map ChartPoint.completed) =
      some [0] ∧
    (getFilteredChartData 0 sampleNow (toggleCompleted scenarioA 0)).map
      (List.map ChartPoint.completed) = some [1] ∧
    (boolAt (toggleCompleted scenarioA 0).completed 0 = !boolAt scenarioA.completed 0 ∧
    (∀ j, j ≠ 0 → boolAt (toggleCompleted scenarioA 0).completed j = boolAt scenarioA.completed j) ∧
    List.Forall₂ (fun e e' =>
        e'.date = e.date ∧ e'.anchors = e.anchors ∧ e'.explore = e.explore ∧
        e'.journal = e.journal ∧ e'.mood = e.mood ∧
        (e.date = scenarioA.dateInput → e'.completed = some (toggleCompleted scenarioA 0).completed) ∧
        (e.date ≠ scenarioA.dateInput → e' = e))
      scenarioA.history (toggleCompleted scenarioA 0).history ∧
    (getFilteredChartData 0 sampleNow (toggleCompleted scenarioA 0)).map
        (List.map ChartPoint.date) =
      (getFilteredChartData 0 sampleNow scenarioA).map (List.map ChartPoint.date) ∧
    (∀ out, getFilteredChartData 0 sampleNow (toggleCompleted scenarioA 0) = some out →
      ∀ p ∈ out, p.date = scenarioA.dateInput →
        p.completed = (toggleCompleted scenarioA 0).completed.count true) ∧
    (∀ before, getFilteredChartData 0 sampleNow scenarioA = some before →
      (∃ p ∈ before, p.date = scenarioA.dateInput) →
      ∃ out, getFilteredChartData 0 sampleNow (toggleCompleted scenarioA 0) = some out ∧
        ∃ p ∈ out, p.date = scenarioA.dateInput ∧
          p.completed = (toggleCompleted scenarioA 0).completed.count true)) :=
  ⟨rfl, by decide, by decide, toggleCompleted_spec 0 sampleNow scenarioA 0 rfl⟩

/-- Scenario B: after scenario A, toggling task 0 stores `completed[0] = true` and the
aggregator reports one completed task for the date. -/
theorem scenarioB_result :
    (toggleCompleted scenarioA 0).history.map Entry.completed = [some [true, false, false]] ∧
    (getFilteredChartData 0 sampleNow
      { toggleCompleted scenarioA 0 with
        chartRange := "custom", customStart := "2024-03-10", customEnd := "2024-03-10" }).map
      (List.map ChartPoint.completed) = some [1] := by
  constructor <;> decide

/-- The check-in claim on scenario C. -/
theorem handleCheckIn_spec_witness :
    scenarioC.checkIn = false ∧
    (handleCheckIn scenarioC).checkIn = true ∧
    (handleCheckIn scenarioC).dateInput = scenarioC.dateInput ∧
    List.Forall₂ (fun e e' =>
        e'.date = e.date ∧ e'.anchors = e.anchors ∧ e'.completed = e.completed ∧
        e'.explore = e.explore ∧
        (e.date = scenarioC.dateInput →
          e'.journal = scenarioC.journal ∧ e'.mood = some scenarioC.mood) ∧
        (e.date ≠ scenarioC.dateInput → e' = e))
      scenarioC.history (handleCheckIn scenarioC).history ∧
    (handleCheckIn (handleCheckIn scenarioC)).checkIn = false ∧
    List.Forall₂ (fun e e' =>
        e'.date = e.date ∧ e'.anchors = e.anchors ∧ e'.completed = e.completed ∧
        e'.explore = e.explore ∧
        (e.date = scenarioC.dateInput → e'.journal = "" ∧ e'.mood = some 0) ∧
        (e.date ≠ scenarioC.dateInput → e' = e))
      (handleCheckIn scenarioC).history (handleCheckIn (handleCheckIn scenarioC)).history ∧
    (∀ e, findByDate scenarioC.history scenarioC.dateInput = some e →
      findByDate (handleCheckIn scenarioC).history scenarioC.dateInput =
        some { e with journal := scenarioC.journal, mood := some scenarioC.mood } ∧
      findByDate (handleCheckIn (handleCheckIn scenarioC)).history scenarioC.dateInput =
        some { e with journal := "", mood := some 0 }) :=
  ⟨rfl, handleCheckIn_spec scenarioC rfl⟩

/-- Scenario C: after scenario A, a check-in with journal `"Good day"` and mood 4 stores
both in the entry, and a second one clears them to `""` and 0; anchors and
completion flags stay as they were. -/
theorem scenarioC_result :
    (findByDate (handleCheckIn scenarioC).history "2024-03-10").map
        (fun e => (e.journal, e.mood, e.anchors, e.completed)) =
      some ("Good day", some 4, some ["Run", "Read"], some [false, false, false]) ∧
    (findByDate (handleCheckIn (handleCheckIn scenarioC)).history "2024-03-10").map
        (fun e => (e.journal, e.mood, e.anchors, e.completed)) =
      some ("", some 0, some ["Run", "Read"], some [false, false, false]) := by
  constructor <;> decide

/-! ## Loading an entry for editing -/

theorem padAnchors_of_le (anchors : List String) (h : anchors.length ≤ 3) :
    padAnchors anchors = some (anchors ++ List.replicate (3 - anchors.length) "") := by
  unfold padAnchors
  by_cases h0 : anchors.length = 0
  · have : anchors = [] := List.length_eq_zero.mp h0
    subst this
    rfl
  · rw [if_neg h0, if_neg (by omega)]

/-- C11, as the code has it: for every history whose first entry for date `d` has at
most three anchors, `loadEntryForEdit(d)` leaves a draft with exactly three anchor
slots, the anchors of the entry followed by blanks; the mood of the draft is
the mood of the entry when that is not 0, and 3 when it is 0 or missing;
`done` is true, `checkIn` says whether the mood of the entry is above 0, the
selected date is `d`, and the history is unchanged. -/
theorem loadEntryForEdit_spec (s : State) (d : String) (e : Entry) (anchors : List String)
    (hfind : findByDate s.history d = some e) (hanchors : e.anchors = some anchors)
    (hlen : anchors.length ≤ 3) :
    ∃ s', loadEntryForEdit s d = some s' ∧
      s'.anchors.length = 3 ∧
      s'.anchors = anchors ++ List.replicate (3 - anchors.length) "" ∧
      (∀ m, e.mood = some m → m ≠ 0 → s'.mood = m) ∧
      (e.mood = some 0 ∨ e.mood = none → s'.mood = 3) ∧
      s'.done = true ∧
      (s'.checkIn = true ↔ ∃ m, e.mood = some m ∧ 0 < m) ∧
      s'.dateInput = d ∧
      s'.history = s.history := by
  have key : loadEntryForEdit s d = some
      { s with
        dateInput := d, done := true,
        anchors := anchors ++ List.replicate (3 - anchors.length) "",
        explore := e.explore, journal := e.journal, mood := numberOr e.mood 3,
        completed := e.completed.getD [false, false, false],
        checkIn := (match e.mood with
          | some m => decide (0 < m)
          | none => false),
        viewMode := "daily" } := by
    simp only [loadEntryForEdit, hfind, hanchors, Option.some_bind,
      padAnchors_of_le anchors hlen, Option.map_some']
  refine ⟨_, key, ?_, rfl, ?_, ?_, rfl, ?_, rfl, rfl⟩
  · simp only [List.length_append, List.length_replicate]
    omega
  · intro m hm hm0
    simp only [numberOr, hm, if_neg hm0]
  · intro h
    rcases h with h | h <;> simp [numberOr, h]
  · cases hm : e.mood with
    | none => simp
    | some m => simp

/-- C11 fails as stated.  In scenario A the entry for `"2024-03-10"` has mood 0, which is
present and not missing, and `loadEntryForEdit` leaves the draft with mood 3,
not the mood of the entry.  And on an entry with four anchors
`loadEntryForEdit` throws instead of truncating them to three. -/
theorem loadEntryForEdit_not_entry_mood :
    (findByDate scenarioA.history "2024-03-10").map Entry.mood = some (some 0) ∧
    (loadEntryForEdit scenarioA "2024-03-10").map State.mood = some 3 ∧
    (findByDate fourAnchors.history "2024-03-10").map Entry.anchors =
      some (some ["a", "b", "c", "d"]) ∧
    loadEntryForEdit fourAnchors "2024-03-10" = none := by
  refine ⟨by decide, by decide, by decide, by decide⟩

/-- The loading claim on scenario A and its date. -/
theorem loadEntryForEdit_spec_witness :
    findByDate scenarioA.history "2024-03-10" =
      some { date := "2024-03-10", anchors := some ["Run", "Read"], explore := "",
             journal := "", mood := some 0, completed := some [false, false, false] } ∧
    (some ["Run", "Read"] : Option (List String)) = some ["Run", "Read"] ∧
    ["Run", "Read"].length ≤ 3 ∧
    ∃ s', loadEntryForEdit scenarioA "2024-03-10" = some s' ∧
      s'.anchors.length = 3 ∧
      s'.anchors = ["Run", "Read"] ++ List.replicate (3 - ["Run", "Read"].length) "" ∧
      (∀ m, (some 0 : Option Int) = some m → m ≠ 0 → s'.mood = m) ∧
      ((some 0 : Option Int) = some 0 ∨ (some 0 : Option Int) = none → s'.mood = 3) ∧
      s'.done = true ∧
      (s'.checkIn = true ↔ ∃ m, (some 0 : Option Int) = some m ∧ 0 < m) ∧
      s'.dateInput = "2024-03-10" ∧
      s'.history = scenarioA.history :=
  ⟨by decide, rfl, by decide,
    loadEntryForEdit_spec scenarioA "2024-03-10"
      { date := "2024-03-10", anchors := some ["Run", "Read"], explore := "",
        journal := "", mood := some 0, completed := some [false, false, false] }
      ["Run", "Read"] (by decide) rfl (by decide)⟩

/-! ## Alignment of tasks and flags -/

theorem boolAt_succ (flags : List Bool) (i : Nat) :
    boolAt flags (i + 1) = boolAt flags.tail i := by
  cases flags <;> simp [boolAt]

theorem boolAt_zero (flags : List Bool) : boolAt flags 0 = flags.headD false := by
  cases flags <;> simp [boolAt]

theorem flagsOfTasks_blanks (k : Nat) (flags : List Bool) :
    flagsOfTasks (List.replicate k "") flags = [] := by
  induction k generalizing flags with
  | zero => rfl
  | succ k ih => simp [List.replicate_succ, flagsOfTasks, ih]

/-- There is one flag per task that `handleSubmit` stores. -/
theorem flagsOfTasks_length (anchors : List String) (flags : List Bool) :
    (flagsOfTasks anchors flags).length = (filterTruthy anchors).length := by
  induction anchors generalizing flags with
  | nil => rfl
  | cons a rest ih =>
    unfold filterTruthy at ih ⊢
    by_cases ha : a = ""
    · simp [flagsOfTasks, ha, ih]
    · simp [flagsOfTasks, ha, ih]

/-- When the blank slots of the draft all come after its tasks, the entry `handleSubmit`
writes is index-aligned: the stored anchors are the tasks and the stored flag at
the index of a task is the flag the draft holds for it. -/
theorem trailingBlanks_aligned (tasks : List String) (k : Nat) (flags : List Bool)
    (htasks : ∀ a ∈ tasks, a ≠ "") :
    filterTruthy (tasks ++ List.replicate k "") = tasks ∧
    ∀ i, i < tasks.length →
      boolAt flags i = boolAt (flagsOfTasks (tasks ++ List.replicate k "") flags) i := by
  induction tasks generalizing flags with
  | nil =>
    refine ⟨?_, fun i hi => absurd hi (Nat.not_lt_zero i)⟩
    simp [filterTruthy, List.filter_eq_nil_iff]
  | cons a rest ih =>
    have ha : a ≠ "" := htasks a (List.mem_cons_self _ _)
    obtain ⟨ih1, ih2⟩ := ih flags.tail (fun x hx => htasks x (List.mem_cons_of_mem _ hx))
    constructor
    · unfold filterTruthy at ih1 ⊢
      rw [List.cons_append, List.filter_cons_of_pos (by simp [ha]), ih1]
    · intro i hi
      simp only [List.cons_append, flagsOfTasks, ha, ne_eq, not_false_eq_true, if_true]
      cases i with
      | zero => cases flags <;> rfl
      | succ j =>
        rw [boolAt_succ, boolAt_succ]
        exact ih2 j (by simpa using hi)

/-- C12: the entry `handleSubmit` writes is not index-aligned when a blank slot precedes a
task.  The draft `blankFirstDraft` has anchors `["", "Run", ""]` and flags
`[false, true, false]`, so the flag it holds for its one task `"Run"` is true; the
entry written has anchors `["Run"]` and flags `[false, true, false]`, whose flag at the
index 0 of `"Run"` is false. -/
theorem handleSubmit_misaligned :
    blankFirstDraft.anchors = ["", "Run", ""] ∧
    blankFirstDraft.completed = [false, true, false] ∧
    flagsOfTasks blankFirstDraft.anchors blankFirstDraft.completed = [true] ∧
    (handleSubmit blankFirstDraft).history =
      [{ date := "2024-03-10", anchors := some ["Run"], explore := "", journal := "",
         mood := some 0, completed := some [false, true, false] }] ∧
    boolAt [false, true, false] 0 = false := by
  refine ⟨by decide, by decide, by decide, by decide, by decide⟩

/-! ## Handlers without an entry for the selected date -/

theorem map_date_ne (h : List Entry) (date : String) (f : Entry → Entry)
    (hne : ∀ e ∈ h, e.date ≠ date) :
    h.map (fun entry => if entry.date = date then f entry else entry) = h := by
  induction h with
  | nil => rfl
  | cons e es ih =>
    rw [List.map_cons, if_neg (hne e (List.mem_cons_self _ _)),
      ih (fun x hx => hne x (List.mem_cons_of_mem _ hx))]

theorem findByDate_eq_none {h : List Entry} {date : String} (hnone : findByDate h date = none) :
    ∀ e ∈ h, e.date ≠ date := by
  intro e he heq
  unfold findByDate at hnone
  have := List.find?_eq_none.mp hnone e he
  simp [heq] at this

/-- C13: for every state whose history holds no entry for the selected date, with `done`
and `checkIn` true or false, `toggleCompleted` at any index and `handleCheckIn` (once or
twice) leave the history exactly as it was. -/
theorem noEntry_history_unchanged (s : State) (index : Nat)
    (hnone : findByDate s.history s.dateInput = none) :
    (toggleCompleted s index).history = s.history ∧
    (toggleCompleted { s with done := true } index).history = s.history ∧
    (toggleCompleted { s with done := false } index).history = s.history ∧
    (handleCheckIn s).history = s.history ∧
    (handleCheckIn { s with checkIn := true }).history = s.history ∧
    (handleCheckIn { s with checkIn := false }).history = s.history ∧
    (handleCheckIn (handleCheckIn s)).history = s.history := by
  have hne := findByDate_eq_none hnone
  have ht : ∀ s' : State, s'.history = s.history → s'.dateInput = s.dateInput →
      (toggleCompleted s' index).history = s.history := by
    intro s' h1 h2
    unfold toggleCompleted
    by_cases hd : s'.done = true
    · simp only [hd, if_true, h1, h2]
      exact map_date_ne _ _ _ hne
    · simp only [hd, Bool.false_eq_true, if_false, h1]
  have hc : ∀ s' : State, s'.history = s.history → s'.dateInput = s.dateInput →
      (handleCheckIn s').history = s.history ∧ (handleCheckIn s').dateInput = s.dateInput := by
    intro s' h1 h2
    unfold handleCheckIn
    by_cases hd : s'.checkIn = true
    · simp only [hd, if_true, h1, h2]
      exact ⟨map_date_ne _ _ _ hne, trivial⟩
    · simp only [hd, Bool.false_eq_true, if_false, h1, h2]
      exact ⟨map_date_ne _ _ _ hne, trivial⟩
  refine ⟨ht s rfl rfl, ht { s with done := true } rfl rfl, ht { s with done := false } rfl rfl,
    (hc s rfl rfl).1, (hc { s with checkIn := true } rfl rfl).1,
    (hc { s with checkIn := false } rfl rfl).1, ?_⟩
  exact (hc (handleCheckIn s) (hc s rfl rfl).1 (hc s rfl rfl).2).1

/-- The no-entry claim on `sampleNoEntry`, whose history holds four entries, none of them
for the selected date. -/
theorem noEntry_history_unchanged_witness :
    sampleNoEntry.history.map Entry.date =
      ["2024-03-17", "2024-03-16", "2024-03-10", "2024-03-09"] ∧
    sampleNoEntry.dateInput = "2024-03-13" ∧
    findByDate sampleNoEntry.history sampleNoEntry.dateInput = none ∧
    (toggleCompleted sampleNoEntry 1).history = sampleNoEntry.history ∧
    (toggleCompleted { sampleNoEntry with done := true } 1).history = sampleNoEntry.history ∧
    (toggleCompleted { sampleNoEntry with done := false } 1).history = sampleNoEntry.history ∧
    (handleCheckIn sampleNoEntry).history = sampleNoEntry.history ∧
    (handleCheckIn { sampleNoEntry with checkIn := true }).history = sampleNoEntry.history ∧
    (handleCheckIn { sampleNoEntry with checkIn := false }).history = sampleNoEntry.history ∧
    (handleCheckIn (handleCheckIn sampleNoEntry)).history = sampleNoEntry.history :=
  ⟨by decide, by decide, by decide, noEntry_history_unchanged sampleNoEntry 1 (by decide)⟩

/-! ## Debounced autosave -/

/-- The timers due by `t` come before the others when the timers are in the order of
their times. -/
theorem filter_due_append (l : List Timer) (t : Nat)
    (hs : l.Pairwise (fun x y => x.fireAt ≤ y.fireAt)) :
    l.filter (fun tm => tm.fireAt ≤ t) ++ l.filter (fun tm => ¬ tm.fireAt ≤ t) = l := by
  induction l with
  | nil => rfl
  | cons a l ih =>
    obtain ⟨ha, hl⟩ := List.pairwise_cons.mp hs
    by_cases hd : a.fireAt ≤ t
    · rw [List.filter_cons_of_pos (by simpa using hd), List.filter_cons_of_neg (by simpa using hd),
        List.cons_append, ih hl]
    · have hnone : l.filter (fun tm => tm.fireAt ≤ t) = [] := by
        apply List.filter_eq_nil_iff.mpr
        intro x hx
        have := ha x hx
        simp only [decide_eq_true_eq]
        omega
      have hall : l.filter (fun tm => ¬ tm.fireAt ≤ t) = l := by
        apply List.filter_eq_self.mpr
        intro x hx
        have := ha x hx
        simp only [decide_eq_true_eq]
        omega
      rw [List.filter_cons_of_neg (by simpa using hd), List.filter_cons_of_pos (by simpa using hd),
        hnone, hall, List.nil_append]

/-- Running the host keeps the order of the writes done and to come, when the pending
timers are in the order of their times. -/
theorem runUntil_writes (h : Host) (t : Nat)
    (hs : h.timers.Pairwise (fun x y => x.fireAt ≤ y.fireAt)) :
    (runUntil h t).writes ++
        (runUntil h t).timers.map (fun tm => saveAllData tm.captured tm.fireAt) =
      h.writes ++ h.timers.map (fun tm => saveAllData tm.captured tm.fireAt) := by
  have hsorted : (h.timers.filter (fun tm => tm.fireAt ≤ t)).Sorted
      (fun x y => x.fireAt ≤ y.fireAt) := List.Pairwise.filter _ hs
  simp only [runUntil, hsorted.insertionSort_eq, List.append_assoc, ← List.map_append,
    filter_due_append h.timers t hs]

/-- The host after a render with changed dependencies: the due timers have fired and
one timer is added for the new state, none is cleared. -/
theorem stateChange_host (a : Autosave) (t : Nat) (s : State) :
    (stateChange a t s).host =
      { runUntil a.host t with
        nextId := (runUntil a.host t).nextId + 1,
        timers := (runUntil a.host t).timers ++
          [{ id := (runUntil a.host t).nextId, fireAt := max a.host.now t + 300, captured := s }] } :=
  rfl

/-- What a sequence of state changes does to the writes done and to come: every change
adds one write of its own state, 300 ms after the change; the pending timers
stay in the order of their times, none later than `bound`. -/
theorem stateChanges_invariant (changes : List (Nat × State)) (bound : Nat) :
    ∀ a : Autosave,
      a.host.timers.Pairwise (fun x y => x.fireAt ≤ y.fireAt) →
      (∀ tm ∈ a.host.timers, tm.fireAt ≤ a.host.now + 300) →
      (∀ tm ∈ a.host.timers, tm.fireAt ≤ bound) →
      List.Chain (fun x y => x ≤ y) a.host.now (changes.map Prod.fst) →
      (∀ c ∈ changes, c.1 + 300 ≤ bound) →
      (stateChanges a changes).host.timers.Pairwise (fun x y => x.fireAt ≤ y.fireAt) ∧
      (∀ tm ∈ (stateChanges a changes).host.timers, tm.fireAt ≤ bound) ∧
      (stateChanges a changes).host.writes ++
          (stateChanges a changes).host.timers.map
            (fun tm => saveAllData tm.captured tm.fireAt) =
        a.host.writes ++ a.host.timers.map (fun tm => saveAllData tm.captured tm.fireAt) ++
          changes.map (fun c => saveAllData c.2 (c.1 + 300)) := by
  induction changes with
  | nil =>
    intro a hs _ hb _ _
    exact ⟨hs, hb, by simp [stateChanges]⟩
  | cons c cs ih =>
    intro a hs hnow hb hchain hbound
    simp only [List.map_cons, List.chain_cons] at hchain
    obtain ⟨hc, hchain⟩ := hchain
    have hmax : max a.host.now c.1 = c.1 := Nat.max_eq_right hc
    have hrun := runUntil_writes a.host c.1 hs
    have hsub : ∀ tm ∈ (runUntil a.host c.1).timers, tm ∈ a.host.timers := by
      intro tm htm
      exact (List.mem_filter.mp htm).1
    have hnow' : (stateChange a c.1 c.2).host.now = c.1 := by
      rw [stateChange_host]
      exact hmax
    have htimers : (stateChange a c.1 c.2).host.timers = (runUntil a.host c.1).timers ++
        [{ id := (runUntil a.host c.1).nextId, fireAt := c.1 + 300, captured := c.2 }] := by
      rw [stateChange_host, hmax]
    have hwrites : (stateChange a c.1 c.2).host.writes = (runUntil a.host c.1).writes := by
      rw [stateChange_host]
    have h1 : (stateChange a c.1 c.2).host.timers.Pairwise (fun x y => x.fireAt ≤ y.fireAt) := by
      rw [htimers, List.pairwise_append]
      refine ⟨List.Pairwise.filter _ hs, List.pairwise_singleton _ _, ?_⟩
      intro x hx y hy
      rw [List.mem_singleton] at hy
      subst hy
      have := hnow x (hsub x hx)
      simp only
      omega
    have h2 : ∀ tm ∈ (stateChange a c.1 c.2).host.timers,
        tm.fireAt ≤ (stateChange a c.1 c.2).host.now + 300 := by
      intro tm htm
      rw [htimers, List.mem_append, List.mem_singleton] at htm
      rw [hnow']
      rcases htm with htm | htm
      · have := hnow tm (hsub tm htm)
        omega
      · subst htm
        exact le_refl _
    have h3 : ∀ tm ∈ (stateChange a c.1 c.2).host.timers, tm.fireAt ≤ bound := by
      intro tm htm
      rw [htimers, List.mem_append, List.mem_singleton] at htm
      rcases htm with htm | htm
      · exact hb tm (hsub tm htm)
      · subst htm
        exact hbound c (List.mem_cons_self _ _)
    have h4 : List.Chain (fun x y => x ≤ y) (stateChange a c.1 c.2).host.now
        (cs.map Prod.fst) := by
      rw [hnow']
      exact hchain
    obtain ⟨r1, r2, r3⟩ := ih (stateChange a c.1 c.2) h1 h2 h3 h4
      (fun x hx => hbound x (List.mem_cons_of_mem _ hx))
    have hfold : stateChanges a (c :: cs) = stateChanges (stateChange a c.1 c.2) cs := rfl
    rw [hfold]
    refine ⟨r1, r2, ?_⟩
    rw [r3, hwrites, htimers, List.map_append, ← List.append_assoc, hrun]
    simp

/-- Once every pending timer is due, running the host performs all the writes to come
and leaves no timer. -/
theorem runUntil_all_due (h : Host) (t : Nat)
    (hs : h.timers.Pairwise (fun x y => x.fireAt ≤ y.fireAt))
    (hdue : ∀ tm ∈ h.timers, tm.fireAt ≤ t) :
    (runUntil h t).timers = [] ∧
    (runUntil h t).writes =
      h.writes ++ h.timers.map (fun tm => saveAllData tm.captured tm.fireAt) := by
  have hnil : (runUntil h t).timers = [] := by
    simp only [runUntil]
    apply List.filter_eq_nil_iff.mpr
    intro tm htm
    simpa using hdue tm htm
  have hrun := runUntil_writes h t hs
  rw [hnil] at hrun
  simpa using And.intro hnil hrun

/-- Every state change gets a debounced write of its own: after any sequence of state
changes at times that do not decrease, started with no timer pending, and
once 300 ms have passed since the last change, the writes performed are one per
change, each 300 ms after its change and with the state of its change, and
no timer is pending. -/
theorem stateChanges_writes (a : Autosave) (changes : List (Nat × State)) (t : Nat)
    (hquiet : a.host.timers = [])
    (htimes : List.Chain (fun x y => x ≤ y) a.host.now (changes.map Prod.fst))
    (hlate : ∀ c ∈ changes, c.1 + 300 ≤ t) :
    (idle (stateChanges a changes) t).host.timers = [] ∧
    (idle (stateChanges a changes) t).host.writes =
      a.host.writes ++ changes.map (fun c => saveAllData c.2 (c.1 + 300)) := by
  obtain ⟨r1, r2, r3⟩ := stateChanges_invariant changes t a (by rw [hquiet]; exact List.Pairwise.nil)
    (by rw [hquiet]; intro tm htm; cases htm) (by rw [hquiet]; intro tm htm; cases htm)
    htimes hlate
  obtain ⟨e1, e2⟩ := runUntil_all_due (stateChanges a changes).host t r1 r2
  refine ⟨e1, ?_⟩
  show (runUntil (stateChanges a changes).host t).writes = _
  rw [e2, r3, hquiet]
  simp

/-- The function `debounce` returns does coalesce its own calls: when it is called, and
called again less than `wait` later, with no other timer around, its first timer
is cleared before it fires, nothing is written, and one timer is pending, set
`wait` after the second call. -/
theorem callDebounced_again (d : Debounced) (h : Host) (t : Nat) (hquiet : h.timers = [])
    (hnow : h.now ≤ t) (hsoon : t < h.now + d.wait) :
    (callDebounced (callDebounced d h).1 (runUntil (callDebounced d h).2 t)).2.writes = h.writes ∧
    (callDebounced (callDebounced d h).1 (runUntil (callDebounced d h).2 t)).2.timers =
      [{ id := h.nextId + 1, fireAt := t + d.wait, captured := d.captured }] := by
  have h1 : (callDebounced d h).2 =
      { h with nextId := h.nextId + 1,
               timers := [{ id := h.nextId, fireAt := h.now + d.wait, captured := d.captured }] } := by
    cases hd : d.timeout <;> simp [callDebounced, clearTimeout, setTimeout, hd, hquiet]
  have h2 : runUntil (callDebounced d h).2 t =
      { h with now := t, nextId := h.nextId + 1,
               timers := [{ id := h.nextId, fireAt := h.now + d.wait, captured := d.captured }] } := by
    rw [h1]
    have hnd : ¬ h.now + d.wait ≤ t := by omega
    simp [runUntil, hnd, Nat.max_eq_right hnow]
    exact hsoon
  have h3 : (callDebounced d h).1 = { d with timeout := some h.nextId } := by
    cases hd : d.timeout <;> simp [callDebounced, clearTimeout, setTimeout, hd]
  rw [h2, h3]
  simp [callDebounced, clearTimeout, setTimeout]

/-- C14: the autosave does not coalesce.  After the component is mounted and its first
save is done, two state changes 100 ms apart (at 1000 ms and 1100 ms) leave two
timers pending, one per change, since each render builds a new debounced
function whose `timeout` is unset and clears nothing; both fire, so two writes
are performed for the two changes, at 1300 ms with the state of the first
change and at 1400 ms with the latest state. -/
theorem debouncedSave_not_coalesced :
    (idle (mount typing0) 1000).host.timers = [] ∧
    (idle (mount typing0) 1000).host.writes.map (fun w => (w.lastSaved, w.anchors)) =
      [(300, ["", "", ""])] ∧
    typingRun.host.timers.map (fun tm => (tm.fireAt, tm.captured.anchors)) =
      [(1300, ["R", "", ""]), (1400, ["Ru", "", ""])] ∧
    (idle typingRun 2000).host.timers = [] ∧
    (idle typingRun 2000).host.writes.map (fun w => (w.lastSaved, w.anchors)) =
      [(300, ["", "", ""]), (1300, ["R", "", ""]), (1400, ["Ru", "", ""])] := by
  refine ⟨by decide, by decide, by decide, by decide, by decide⟩

/-- When the blank slots of the draft all come after its tasks, the entry `handleSubmit`
puts in front of the history holds the tasks as its anchors and the flags of
the draft, and the flag stored at the index of a task is the flag the draft
holds for that task. -/
theorem handleSubmit_aligned (s : State) (tasks : List String) (k : Nat)
    (htasks : ∀ a ∈ tasks, a ≠ "") (hs : s.anchors = tasks ++ List.replicate k "") :
    ∃ e rest, (handleSubmit s).history = e :: rest ∧
      e.anchors = some tasks ∧ e.completed = some s.completed ∧
      ∀ i, i < tasks.length →
        boolAt s.completed i = boolAt (flagsOfTasks s.anchors s.completed) i := by
  obtain ⟨h1, h2⟩ := trailingBlanks_aligned tasks k s.completed htasks
  refine ⟨_, _, handleSubmit_history s, ?_, rfl, ?_⟩
  · simp only [hs, h1]
  · rw [hs]
    exact h2

end TinyWins
